import Mathlib

/-!
# A verification development for the `lox` tree-walking interpreter

This file gives a shallow embedding, in Lean 4, of the core of the `lox`
interpreter (a Rust implementation of the Lox language) and proves properties
of that embedding.

Conventions used throughout:

* Rust `f64` numbers are modelled as an executable exact rational type
  (`LoxNum`).  Every numeric literal handled in the theorems below is a small
  integer, on which IEEE double arithmetic is exact, so no rounding behaviour
  is lost.  No theorem below exercises division by zero, NaN, or decimal
  formatting of non-integral numbers.
* Rust `HashMap`s are modelled as insertion-ordered, duplicate-free
  association lists (`ainsert` replaces an existing key in place and appends a
  fresh key).  Where a theorem compares two maps they have identical insertion
  order, so ordered comparison agrees with `HashMap` equality.
* `Rc<RefCell<...>>` cells are modelled by tagging each allocation with a
  fresh numeric cell identity drawn from a counter in the interpreter state.
  Object cells (the only cells whose interior the embedded programs mutate
  after construction) live in an explicit heap in the state; function, class,
  super-table and vector cells are stored inline together with their identity.
* Rust panics (`panic!`, `assert!`, `unwrap`, `expect`, out-of-bounds
  indexing) are modelled as a distinguished `panicked` outcome, kept separate
  from the interpreter's `Result`-based error channel (`err`).
* Unbounded recursion (the evaluator, the parser, the resolver) is modelled
  with an explicit fuel parameter; exhausting fuel yields the distinguished
  outcome `fuelOut`.  For every terminating run of the Rust code there is a
  fuel large enough, so statements proved at a given fuel about a `.ok`
  result reflect the Rust behaviour.
-/

namespace Lox

/-! ## Numbers

The interpreter's numbers are Rust `f64`.  They are modelled by an
executable exact rational type: every literal and every arithmetic result in
the theorems below is a small integer, on which IEEE double arithmetic is
exact, so nothing is lost on the runs proved about.  (`/` at a zero divisor
yields IEEE infinities in Rust; that case is outside this model and outside
every claim.)  Values are kept normalized — positive denominator, coprime —
so structural equality coincides with numeric equality, matching `f64`
`PartialEq` on the exercised fragment. -/

structure LoxNum where
  num : Int
  den : Nat
deriving DecidableEq, Repr

def LoxNum.normalize (n : Int) (d : Nat) : LoxNum :=
  if d = 0 then ⟨0, 1⟩
  else
    let g := Nat.gcd n.natAbs d
    ⟨if n < 0 then -(((n.natAbs / g : Nat)) : Int) else ((n.natAbs / g : Nat) : Int),
     d / g⟩

def LoxNum.ofInt (n : Int) : LoxNum := ⟨n, 1⟩

def LoxNum.add (a b : LoxNum) : LoxNum :=
  LoxNum.normalize (a.num * b.den + b.num * a.den) (a.den * b.den)

def LoxNum.sub (a b : LoxNum) : LoxNum :=
  LoxNum.normalize (a.num * b.den - b.num * a.den) (a.den * b.den)

def LoxNum.mul (a b : LoxNum) : LoxNum :=
  LoxNum.normalize (a.num * b.num) (a.den * b.den)

def LoxNum.div (a b : LoxNum) : LoxNum :=
  LoxNum.normalize (a.num * b.den * (if b.num < 0 then -1 else 1))
    (a.den * b.num.natAbs)

def LoxNum.ltB (a b : LoxNum) : Bool := decide (a.num * b.den < b.num * a.den)

def LoxNum.leB (a b : LoxNum) : Bool := decide (a.num * b.den ≤ b.num * a.den)

/-- Embeds `f64 as usize`: truncation toward zero, saturating at 0 for
negatives (the embedded indices are small, so upper saturation is
irrelevant). -/
def LoxNum.toUsize (q : LoxNum) : Nat := q.num.toNat / q.den

/-- Embeds the `f64` `Display`: integers render with no decimal point, as in
Rust.  (Displaying non-integral doubles is host-dependent — spec §9 — and
unused here.) -/
def LoxNum.display (q : LoxNum) : String :=
  if q.den = 1 then toString q.num
  else toString q.num ++ "/" ++ toString q.den

/-! ## Tokens (`scanner.rs`)

The token kinds, literal payloads and the token record, following the
`TokenKind`, `Literal` and `Token` definitions of the scanner. -/

inductive TokenKind
  | leftParen | rightParen | leftBrace | rightBrace | comma | dot | minus | plus
  | semicolon | slash | star | bang | bangEqual | equal | equalEqual | greater
  | greaterEqual | less | lessEqual | identifier | string | number | and_ | class_
  | else_ | false_ | fun_ | for_ | if_ | nil | or_ | print | return_ | super_
  | this_ | true_ | var_ | while_ | eof
deriving DecidableEq, Repr

inductive Literal
  | num (n : LoxNum)
  | str (s : String)
  | true_
  | false_
deriving DecidableEq, Repr

structure Token where
  kind : TokenKind
  lexeme : Option String
  literal : Option Literal
  line : Nat
deriving DecidableEq, Repr

/-- Embeds `Token::lexeme_str`.  The top-level `scanner.rs` of the repository is not
in the source tree; every call site uses it as a total accessor returning a
`String`, so it is modelled as `lexeme.unwrap_or_default()`. -/
def Token.lexeme_str (t : Token) : String := t.lexeme.getD ""

/-! ## The evaluator's AST (`expr.rs`, `stmt.rs`)

`struct Expr { kind, _id }`: each expression carries the unique identity
assigned by the monotonic construction counter; the embedded programs below
assign these identities explicitly, mirroring construction order. -/

mutual

inductive ExprKind
  | literal (t : Token)
  | unary (operator : Token) (right : Expr)
  | binary (operator : Token) (left : Expr) (right : Expr)
  | grouping (inner : Expr)
  | identifier (t : Token)
  | assignment (name : Token) (value : Expr)
  | logical (operator : Token) (left : Expr) (right : Expr)
  | call (callee : Expr) (arguments : List Expr)
  | get (left : Expr) (right : Token)
  | set (object : Expr) (identifier : Token) (value : Expr)
  | this (t : Token)
  | super (method : Token)

inductive Expr
  | mk (kind : ExprKind) (id : Nat)

end

def Expr.kind : Expr → ExprKind
  | .mk k _ => k

def Expr.id : Expr → Nat
  | .mk _ i => i

/-- Embeds `Expr::line` -/
def Expr.line (e : Expr) : Nat :=
  match e with
  | .mk k _ =>
    match k with
    | .literal t => t.line
    | .unary op _ => op.line
    | .binary op _ _ => op.line
    | .grouping inner => inner.line
    | .identifier t => t.line
    | .assignment n _ => n.line
    | .logical op _ _ => op.line
    | .call callee _ => callee.line
    | .get l _ => l.line
    | .set o _ _ => o.line
    | .this t => t.line
    | .super t => t.line

inductive Stmt
  | expr (e : Expr)
  | print (e : Expr)
  | var (name : Token) (initializer : Option Expr)
  | block (stmts : List Stmt)
  | ifElse (condition : Expr) (body : Stmt) (elseBranch : Option Stmt)
  | whileLoop (condition : Expr) (body : Stmt)
  | funDecl (name : Token) (params : List Token) (body : List Stmt)
  | ret (e : Expr)
  | classDecl (name : Token) (superclass : Option Expr) (methods : List Stmt)

/-- Embeds `Stmt::line`.  (`Stmt::Block` indexes `stmts[0]`, a panic on an empty
block; no embedded program takes a line of an empty block, so that case is
mapped to 0.) -/
def Stmt.line : Stmt → Nat
  | .expr e => e.line
  | .print e => e.line
  | .var n _ => n.line
  | .block [] => 0
  | .block (s :: _) => s.line
  | .ifElse c _ _ => c.line
  | .whileLoop c _ => c.line
  | .funDecl n _ _ => n.line
  | .ret e => e.line
  | .classDecl n _ _ => n.line

/-! ## Association-list helpers (model of `HashMap`) -/

/-- Lookup in an association list (first match). -/
def alookup {α : Type} : List (String × α) → String → Option α
  | [], _ => none
  | (k, v) :: rest, key => if k = key then some v else alookup rest key

/-- Embeds `HashMap::insert`: replace the value of an existing key, otherwise add
the binding.  Returns the updated map and the previous value, if any. -/
def ainsert {α : Type} : List (String × α) → String → α → List (String × α) × Option α
  | [], key, v => ([(key, v)], none)
  | (k, w) :: rest, key, v =>
    if k = key then ((k, v) :: rest, some w)
    else
      let (m, prev) := ainsert rest key v
      ((k, w) :: m, prev)

/-- Embeds `HashMap::contains_key`. -/
def acontains {α : Type} (m : List (String × α)) (key : String) : Bool :=
  (alookup m key).isSome

/-- Lookup keyed by `Nat` (the resolver's `Locals` map keyed by expression
identity). -/
def nlookup {α : Type} : List (Nat × α) → Nat → Option α
  | [], _ => none
  | (k, v) :: rest, key => if k = key then some v else nlookup rest key

/-- Insert keyed by `Nat` with `HashMap::insert` semantics. -/
def ninsert {α : Type} : List (Nat × α) → Nat → α → List (Nat × α)
  | [], key, v => [(key, v)]
  | (k, w) :: rest, key, v =>
    if k = key then (k, v) :: rest else (k, w) :: ninsert rest key v

/-! ## The parser's AST (`basic/ast.rs`, as used by `basic/parser.rs`)

`basic/parser.rs` builds `Expr`/`Stmt` values without resolver identities;
they are embedded as `PExpr`/`PStmt`. -/

inductive PExpr
  | literal (t : Token)
  | unary (operator : Token) (right : PExpr)
  | binary (operator : Token) (left : PExpr) (right : PExpr)
  | grouping (inner : PExpr)
  | identifier (t : Token)
  | assignment (name : Token) (value : PExpr)
  | logical (operator : Token) (left : PExpr) (right : PExpr)
  | call (callee : PExpr) (arguments : List PExpr)
deriving Repr

inductive PStmt
  | expr (e : PExpr)
  | print (e : PExpr)
  | var (name : Token) (initializer : Option PExpr)
  | block (stmts : List PStmt)
  | ifElse (condition : PExpr) (body : PStmt) (elseBranch : Option PStmt)
  | whileLoop (condition : PExpr) (body : PStmt)
  | funDecl (name : Token) (params : List Token) (body : List PStmt)
  | ret (e : PExpr)
deriving Repr

/-- Errors produced by the parser (`basic/error.rs`: the `Syntax` and
`Runtime` variants are the ones `basic/parser.rs` constructs). -/
inductive PLoxError
  | synError (message : String) (line : Nat)
  | runtime (message : String)
deriving DecidableEq, Repr

/-! ## Parser (`basic/parser.rs`)

The parser is embedded function by function.  The struct fields `tokens` and
`current` become a `Parser` record threaded through each function; recursive
productions take a fuel parameter.  `peek`/`previous` index the token vector;
Rust panics on an out-of-range index.  Every embedded token stream ends in an
`Eof` token and is only indexed in range, so the out-of-range case is mapped
to a default `Eof` token (it is unreachable in the runs proved about). -/

def MAX_ARGUMENTS : Nat := 255

structure Parser where
  tokens : List Token
  current : Nat

structure ParseResult where
  statements : List PStmt
  errors : List PLoxError

/-- Outcome of one parser production: the Rust `LoxResult<A>` together with
the mutated parser, or fuel exhaustion. -/
inductive POut (α : Type)
  | ok (a : α) (p : Parser)
  | err (e : PLoxError) (p : Parser)
  | fuelOut

def defaultEofToken : Token := ⟨.eof, none, none, 0⟩

def Parser.is_at_end (p : Parser) : Bool := p.current ≥ p.tokens.length

def Parser.peek (p : Parser) : Token := p.tokens.getD p.current defaultEofToken

def Parser.previous (p : Parser) : Token := p.tokens.getD (p.current - 1) defaultEofToken

def Parser.check (p : Parser) (kind : TokenKind) : Bool :=
  if p.is_at_end then false else p.peek.kind = kind

def Parser.advance (p : Parser) : Token × Parser :=
  let p' := if p.is_at_end then p else { p with current := p.current + 1 }
  (p'.previous, p')

def Parser.match_tokens (p : Parser) (kinds : List TokenKind) : Bool × Parser :=
  match kinds with
  | [] => (false, p)
  | k :: rest =>
    if p.check k then (true, (p.advance).2) else p.match_tokens rest

def Parser.syntax_error (_p : Parser) (message : String) (line : Nat) : PLoxError :=
  .synError message line

def Parser.consume (p : Parser) (kind : TokenKind) (err_msg : String) : POut Token :=
  if p.check kind then
    let (t, p') := p.advance
    .ok t p'
  else
    .err (p.syntax_error err_msg p.peek.line) p

def Parser.synchronize_loop : Nat → Parser → Parser
  | 0, p => p
  | fuel + 1, p =>
    if p.is_at_end then p
    else if p.previous.kind = .semicolon
        ∨ p.peek.kind ∈ [TokenKind.class_, .fun_, .var_, .for_, .if_, .while_, .print, .return_]
    then p
    else Parser.synchronize_loop fuel (p.advance).2

def Parser.synchronize (p : Parser) : Parser :=
  let p := (p.advance).2
  Parser.synchronize_loop (p.tokens.length + 1) p

mutual

/-- Embeds `Parser::declaration` -/
def Parser.declaration : Nat → Parser → POut PStmt
  | 0, _ => .fuelOut
  | fuel + 1, p =>
    match p.match_tokens [.fun_] with
    | (true, p) => Parser.function fuel p
    | (false, _) =>
      match p.match_tokens [.var_] with
      | (true, p) => Parser.var_declaration fuel p
      | (false, _) => Parser.statement fuel p

/-- Embeds `Parser::function` -/
def Parser.function : Nat → Parser → POut PStmt
  | 0, _ => .fuelOut
  | fuel + 1, p =>
    match p.consume .identifier "Expected identifier" with
    | .fuelOut => .fuelOut
    | .err e p => .err e p
    | .ok name p =>
      match p.consume .leftParen "Expected opening parenthesis" with
      | .fuelOut => .fuelOut
      | .err e p => .err e p
      | .ok _ p =>
        match Parser.fun_parameters fuel p with
        | .fuelOut => .fuelOut
        | .err e p => .err e p
        | .ok params p =>
          match p.consume .rightParen "Expected closing parenthesis" with
          | .fuelOut => .fuelOut
          | .err e p => .err e p
          | .ok _ p =>
            match p.consume .leftBrace "Expected opening brace" with
            | .fuelOut => .fuelOut
            | .err e p => .err e p
            | .ok _ p =>
              match Parser.function_body_loop fuel p [] with
              | .fuelOut => .fuelOut
              | .err e p => .err e p
              | .ok body p => .ok (.funDecl name params body) p

/-- The body loop of `Parser::function`:
`while !match(RightBrace) && !is_at_end { body.push(declaration()?) }`. -/
def Parser.function_body_loop : Nat → Parser → List PStmt → POut (List PStmt)
  | 0, _, _ => .fuelOut
  | fuel + 1, p, acc =>
    match p.match_tokens [.rightBrace] with
    | (true, p) => .ok acc p
    | (false, _) =>
      if p.is_at_end then .ok acc p
      else
        match Parser.declaration fuel p with
        | .fuelOut => .fuelOut
        | .err e p => .err e p
        | .ok stmt p => Parser.function_body_loop fuel p (acc ++ [stmt])

/-- Embeds `Parser::fun_parameters`.  Note the grammar this loop actually accepts:
after the first identifier it repeats (identifier, then a required comma) and
pushes `previous()` — which at that point is the comma token — onto the
parameter vector. -/
def Parser.fun_parameters : Nat → Parser → POut (List Token)
  | 0, _ => .fuelOut
  | fuel + 1, p =>
    match p.match_tokens [.identifier] with
    | (true, p) => Parser.fun_parameters_loop fuel p [p.previous]
    | (false, _) => .ok [] p

def Parser.fun_parameters_loop : Nat → Parser → List Token → POut (List Token)
  | 0, _, _ => .fuelOut
  | fuel + 1, p, params =>
    match p.match_tokens [.identifier] with
    | (false, _) => .ok params p
    | (true, p) =>
      match p.consume .comma "Expected comma" with
      | .fuelOut => .fuelOut
      | .err e p => .err e p
      | .ok _ p => Parser.fun_parameters_loop fuel p (params ++ [p.previous])

/-- Embeds `Parser::var_declaration` -/
def Parser.var_declaration : Nat → Parser → POut PStmt
  | 0, _ => .fuelOut
  | fuel + 1, p =>
    match p.consume .identifier "Expected identifier" with
    | .fuelOut => .fuelOut
    | .err e p => .err e p
    | .ok identifier p =>
      match p.match_tokens [.equal] with
      | (true, p) =>
        match Parser.expression fuel p with
        | .fuelOut => .fuelOut
        | .err e p => .err e p
        | .ok expr p =>
          match p.consume .semicolon "Expected a semicolon" with
          | .fuelOut => .fuelOut
          | .err e p => .err e p
          | .ok _ p => .ok (.var identifier (some expr)) p
      | (false, _) =>
        match p.consume .semicolon "Expected a semicolon" with
        | .fuelOut => .fuelOut
        | .err e p => .err e p
        | .ok _ p => .ok (.var identifier none) p

/-- Embeds `Parser::statement` -/
def Parser.statement : Nat → Parser → POut PStmt
  | 0, _ => .fuelOut
  | fuel + 1, p =>
    match p.match_tokens [.for_] with
    | (true, p) => Parser.for_statement fuel p
    | (false, _) =>
    match p.match_tokens [.if_] with
    | (true, p) => Parser.if_statement fuel p
    | (false, _) =>
    match p.match_tokens [.print] with
    | (true, p) => Parser.print_statement fuel p
    | (false, _) =>
    match p.match_tokens [.return_] with
    | (true, p) => Parser.return_statement fuel p
    | (false, _) =>
    match p.match_tokens [.while_] with
    | (true, p) => Parser.while_statement fuel p
    | (false, _) =>
    match p.match_tokens [.leftBrace] with
    | (true, p) => Parser.block fuel p
    | (false, _) => Parser.expression_statement fuel p

/-- Embeds `Parser::expression_statement` -/
def Parser.expression_statement : Nat → Parser → POut PStmt
  | 0, _ => .fuelOut
  | fuel + 1, p =>
    match Parser.expression fuel p with
    | .fuelOut => .fuelOut
    | .err e p => .err e p
    | .ok expr p =>
      match p.consume .semicolon "Expected a semicolon" with
      | .fuelOut => .fuelOut
      | .err e p => .err e p
      | .ok _ p => .ok (.expr expr) p

/-- Embeds `Parser::for_statement` (desugars into `Block[init, WhileLoop]`). -/
def Parser.for_statement : Nat → Parser → POut PStmt
  | 0, _ => .fuelOut
  | fuel + 1, p =>
    match p.consume .leftParen "Expected opening parenthesis" with
    | .fuelOut => .fuelOut
    | .err e p => .err e p
    | .ok _ p =>
      match
        (match p.match_tokens [.var_] with
         | (true, p) => Parser.var_declaration fuel p
         | (false, _) => Parser.expression_statement fuel p) with
      | .fuelOut => .fuelOut
      | .err e p => .err e p
      | .ok initializer p =>
        match Parser.expression fuel p with
        | .fuelOut => .fuelOut
        | .err e p => .err e p
        | .ok condition p =>
          match p.consume .semicolon "Expected semicolon" with
          | .fuelOut => .fuelOut
          | .err e p => .err e p
          | .ok _ p =>
            match Parser.expression fuel p with
            | .fuelOut => .fuelOut
            | .err e p => .err e p
            | .ok iterator p =>
              match p.consume .rightParen "Expected closing parenthesis" with
              | .fuelOut => .fuelOut
              | .err e p => .err e p
              | .ok _ p =>
                match Parser.statement fuel p with
                | .fuelOut => .fuelOut
                | .err e p => .err e p
                | .ok body p =>
                  .ok (.block [initializer,
                    .whileLoop condition (.block [body, .expr iterator])]) p

/-- Embeds `Parser::if_statement` -/
def Parser.if_statement : Nat → Parser → POut PStmt
  | 0, _ => .fuelOut
  | fuel + 1, p =>
    match p.consume .leftParen "Expected opening parenthesis" with
    | .fuelOut => .fuelOut
    | .err e p => .err e p
    | .ok _ p =>
      match Parser.expression fuel p with
      | .fuelOut => .fuelOut
      | .err e p => .err e p
      | .ok condition p =>
        match p.consume .rightParen "Expected closing parenthesis" with
        | .fuelOut => .fuelOut
        | .err e p => .err e p
        | .ok _ p =>
          match Parser.statement fuel p with
          | .fuelOut => .fuelOut
          | .err e p => .err e p
          | .ok body p =>
            match p.match_tokens [.else_] with
            | (true, p) =>
              match Parser.statement fuel p with
              | .fuelOut => .fuelOut
              | .err e p => .err e p
              | .ok else_branch p => .ok (.ifElse condition body (some else_branch)) p
            | (false, _) => .ok (.ifElse condition body none) p

/-- Embeds `Parser::print_statement` -/
def Parser.print_statement : Nat → Parser → POut PStmt
  | 0, _ => .fuelOut
  | fuel + 1, p =>
    match Parser.expression fuel p with
    | .fuelOut => .fuelOut
    | .err e p => .err e p
    | .ok expr p =>
      match p.consume .semicolon "Expected a semicolon" with
      | .fuelOut => .fuelOut
      | .err e p => .err e p
      | .ok _ p => .ok (.print expr) p

/-- Embeds `Parser::return_statement`; a bare `return ;` yields
`Return(Literal(nil-token))`. -/
def Parser.return_statement : Nat → Parser → POut PStmt
  | 0, _ => .fuelOut
  | fuel + 1, p =>
    match
      (if p.check .semicolon then
        .ok (PExpr.literal ⟨.nil, some "nil", none, p.previous.line⟩) p
      else Parser.expression fuel p : POut PExpr) with
    | .fuelOut => .fuelOut
    | .err e p => .err e p
    | .ok value p =>
      match p.consume .semicolon "Expected a semicolon" with
      | .fuelOut => .fuelOut
      | .err e p => .err e p
      | .ok _ p => .ok (.ret value) p

/-- Embeds `Parser::while_statement` -/
def Parser.while_statement : Nat → Parser → POut PStmt
  | 0, _ => .fuelOut
  | fuel + 1, p =>
    match p.consume .leftParen "Expected opening parenthesis" with
    | .fuelOut => .fuelOut
    | .err e p => .err e p
    | .ok _ p =>
      match Parser.expression fuel p with
      | .fuelOut => .fuelOut
      | .err e p => .err e p
      | .ok condition p =>
        match p.consume .rightParen "Expected closing parenthesis" with
        | .fuelOut => .fuelOut
        | .err e p => .err e p
        | .ok _ p =>
          match Parser.statement fuel p with
          | .fuelOut => .fuelOut
          | .err e p => .err e p
          | .ok body p => .ok (.whileLoop condition body) p

/-- Embeds `Parser::block` -/
def Parser.block : Nat → Parser → POut PStmt
  | 0, _ => .fuelOut
  | fuel + 1, p => Parser.block_loop fuel p []

def Parser.block_loop : Nat → Parser → List PStmt → POut PStmt
  | 0, _, _ => .fuelOut
  | fuel + 1, p, acc =>
    if !p.check .rightBrace ∧ !p.is_at_end then
      match Parser.declaration fuel p with
      | .fuelOut => .fuelOut
      | .err e p => .err e p
      | .ok stmt p => Parser.block_loop fuel p (acc ++ [stmt])
    else
      match p.consume .rightBrace "Expected closing brace" with
      | .fuelOut => .fuelOut
      | .err e p => .err e p
      | .ok _ p => .ok (.block acc) p

/-- Embeds `Parser::expression` -/
def Parser.expression : Nat → Parser → POut PExpr
  | 0, _ => .fuelOut
  | fuel + 1, p => Parser.assignemnt fuel p

/-- Embeds `Parser::assignemnt` (the misspelling is the source's). -/
def Parser.assignemnt : Nat → Parser → POut PExpr
  | 0, _ => .fuelOut
  | fuel + 1, p =>
    match Parser.logic_or fuel p with
    | .fuelOut => .fuelOut
    | .err e p => .err e p
    | .ok left p =>
      match p.match_tokens [.equal] with
      | (true, p) =>
        match left with
        | .identifier name =>
          match Parser.assignemnt fuel p with
          | .fuelOut => .fuelOut
          | .err e p => .err e p
          | .ok right p => .ok (.assignment name right) p
        | _ => .err (.runtime "Invalid assignment target") p
      | (false, _) => .ok left p

/-- Embeds `Parser::logic_or` -/
def Parser.logic_or : Nat → Parser → POut PExpr
  | 0, _ => .fuelOut
  | fuel + 1, p =>
    match Parser.logic_and fuel p with
    | .fuelOut => .fuelOut
    | .err e p => .err e p
    | .ok left p => Parser.logic_or_loop fuel p left

def Parser.logic_or_loop : Nat → Parser → PExpr → POut PExpr
  | 0, _, _ => .fuelOut
  | fuel + 1, p, left =>
    match p.match_tokens [.or_] with
    | (false, _) => .ok left p
    | (true, p) =>
      let operator := p.previous
      match Parser.logic_and fuel p with
      | .fuelOut => .fuelOut
      | .err e p => .err e p
      | .ok right p => Parser.logic_or_loop fuel p (.logical operator left right)

/-- Embeds `Parser::logic_and` -/
def Parser.logic_and : Nat → Parser → POut PExpr
  | 0, _ => .fuelOut
  | fuel + 1, p =>
    match Parser.equality fuel p with
    | .fuelOut => .fuelOut
    | .err e p => .err e p
    | .ok left p => Parser.logic_and_loop fuel p left

def Parser.logic_and_loop : Nat → Parser → PExpr → POut PExpr
  | 0, _, _ => .fuelOut
  | fuel + 1, p, left =>
    match p.match_tokens [.and_] with
    | (false, _) => .ok left p
    | (true, p) =>
      let operator := p.previous
      match Parser.equality fuel p with
      | .fuelOut => .fuelOut
      | .err e p => .err e p
      | .ok right p => Parser.logic_and_loop fuel p (.logical operator left right)

/-- Embeds `Parser::equality` -/
def Parser.equality : Nat → Parser → POut PExpr
  | 0, _ => .fuelOut
  | fuel + 1, p =>
    match Parser.comparison fuel p with
    | .fuelOut => .fuelOut
    | .err e p => .err e p
    | .ok left p => Parser.equality_loop fuel p left

def Parser.equality_loop : Nat → Parser → PExpr → POut PExpr
  | 0, _, _ => .fuelOut
  | fuel + 1, p, left =>
    match p.match_tokens [.bangEqual, .equalEqual] with
    | (false, _) => .ok left p
    | (true, p) =>
      let operator := p.previous
      match Parser.comparison fuel p with
      | .fuelOut => .fuelOut
      | .err e p => .err e p
      | .ok right p => Parser.equality_loop fuel p (.binary operator left right)

/-- Embeds `Parser::comparison` -/
def Parser.comparison : Nat → Parser → POut PExpr
  | 0, _ => .fuelOut
  | fuel + 1, p =>
    match Parser.term fuel p with
    | .fuelOut => .fuelOut
    | .err e p => .err e p
    | .ok left p => Parser.comparison_loop fuel p left

def Parser.comparison_loop : Nat → Parser → PExpr → POut PExpr
  | 0, _, _ => .fuelOut
  | fuel + 1, p, left =>
    match p.match_tokens [.greater, .greaterEqual, .less, .lessEqual] with
    | (false, _) => .ok left p
    | (true, p) =>
      let operator := p.previous
      match Parser.term fuel p with
      | .fuelOut => .fuelOut
      | .err e p => .err e p
      | .ok right p => Parser.comparison_loop fuel p (.binary operator left right)

/-- Embeds `Parser::term` -/
def Parser.term : Nat → Parser → POut PExpr
  | 0, _ => .fuelOut
  | fuel + 1, p =>
    match Parser.factor fuel p with
    | .fuelOut => .fuelOut
    | .err e p => .err e p
    | .ok left p => Parser.term_loop fuel p left

def Parser.term_loop : Nat → Parser → PExpr → POut PExpr
  | 0, _, _ => .fuelOut
  | fuel + 1, p, left =>
    match p.match_tokens [.minus, .plus] with
    | (false, _) => .ok left p
    | (true, p) =>
      let operator := p.previous
      match Parser.factor fuel p with
      | .fuelOut => .fuelOut
      | .err e p => .err e p
      | .ok right p => Parser.term_loop fuel p (.binary operator left right)

/-- Embeds `Parser::factor` -/
def Parser.factor : Nat → Parser → POut PExpr
  | 0, _ => .fuelOut
  | fuel + 1, p =>
    match Parser.unary fuel p with
    | .fuelOut => .fuelOut
    | .err e p => .err e p
    | .ok left p => Parser.factor_loop fuel p left

def Parser.factor_loop : Nat → Parser → PExpr → POut PExpr
  | 0, _, _ => .fuelOut
  | fuel + 1, p, left =>
    match p.match_tokens [.slash, .star] with
    | (false, _) => .ok left p
    | (true, p) =>
      let operator := p.previous
      match Parser.unary fuel p with
      | .fuelOut => .fuelOut
      | .err e p => .err e p
      | .ok right p => Parser.factor_loop fuel p (.binary operator left right)

/-- Embeds `Parser::unary`: both `!` and `-` are parsed into `Expr::Unary`. -/
def Parser.unary : Nat → Parser → POut PExpr
  | 0, _ => .fuelOut
  | fuel + 1, p =>
    match p.match_tokens [.bang, .minus] with
    | (true, p) =>
      let operator := p.previous
      match Parser.unary fuel p with
      | .fuelOut => .fuelOut
      | .err e p => .err e p
      | .ok right p => .ok (.unary operator right) p
    | (false, _) => Parser.call fuel p

/-- Embeds `Parser::call` -/
def Parser.call : Nat → Parser → POut PExpr
  | 0, _ => .fuelOut
  | fuel + 1, p =>
    match Parser.primary fuel p with
    | .fuelOut => .fuelOut
    | .err e p => .err e p
    | .ok left p => Parser.call_loop fuel p left

def Parser.call_loop : Nat → Parser → PExpr → POut PExpr
  | 0, _, _ => .fuelOut
  | fuel + 1, p, left =>
    match p.match_tokens [.leftParen] with
    | (false, _) => .ok left p
    | (true, p) =>
      match p.match_tokens [.rightParen] with
      | (true, p) => Parser.call_loop fuel p (.call left [])
      | (false, _) =>
        match Parser.call_args_loop fuel p [] with
        | .fuelOut => .fuelOut
        | .err e p => .err e p
        | .ok arguments p =>
          match p.consume .rightParen "Expected closing parenthesis" with
          | .fuelOut => .fuelOut
          | .err e p => .err e p
          | .ok _ p => Parser.call_loop fuel p (.call left arguments)

/-- The argument loop of `Parser::call`: pushes an expression, errors once
more than `MAX_ARGUMENTS` arguments have been pushed, then continues on a
comma. -/
def Parser.call_args_loop : Nat → Parser → List PExpr → POut (List PExpr)
  | 0, _, _ => .fuelOut
  | fuel + 1, p, acc =>
    match Parser.expression fuel p with
    | .fuelOut => .fuelOut
    | .err e p => .err e p
    | .ok arg p =>
      let acc := acc ++ [arg]
      if acc.length > MAX_ARGUMENTS then
        .err (.runtime "Exceeded maximum number of arguments") p
      else
        match p.match_tokens [.comma] with
        | (true, p) => Parser.call_args_loop fuel p acc
        | (false, _) => .ok acc p

/-- Embeds `Parser::primary` -/
def Parser.primary : Nat → Parser → POut PExpr
  | 0, _ => .fuelOut
  | fuel + 1, p =>
    match p.match_tokens [.number, .string, .true_, .false_, .nil] with
    | (true, p) => .ok (.literal p.previous) p
    | (false, _) =>
      match p.match_tokens [.identifier] with
      | (true, p) => .ok (.identifier p.previous) p
      | (false, _) =>
        match p.match_tokens [.leftParen] with
        | (true, p) =>
          match Parser.expression fuel p with
          | .fuelOut => .fuelOut
          | .err e p => .err e p
          | .ok expr p =>
            match p.consume .rightParen "Expected closing ')'" with
            | .fuelOut => .fuelOut
            | .err e p => .err e p
            | .ok _ p => .ok (.grouping expr) p
        | (false, _) => .err (p.syntax_error "Expected expression" p.peek.line) p

end

/-- The top loop of `Parser::parse`. -/
def Parser.parse_loop : Nat → Parser → List PStmt → List PLoxError → Option ParseResult
  | 0, _, _, _ => none
  | fuel + 1, p, statements, errors =>
    if p.is_at_end then some ⟨statements, errors⟩
    else
      match p.match_tokens [.eof] with
      | (true, p) => Parser.parse_loop fuel p statements errors
      | (false, _) =>
        match Parser.declaration fuel p with
        | .fuelOut => none
        | .ok stmt p => Parser.parse_loop fuel p (statements ++ [stmt]) errors
        | .err e p => Parser.parse_loop fuel (p.synchronize) statements (errors ++ [e])

/-- Embeds `Parser::parse`.  `none` means the fuel was insufficient, never a
behaviour of the Rust code. -/
def Parser.parse (fuel : Nat) (tokens : List Token) : Option ParseResult :=
  Parser.parse_loop fuel { tokens := tokens, current := 0 } [] []

end Lox

namespace Lox

/-! ## Resolver (`resolver.rs`)

The resolver walks statements with a local-scope stack (name → initialized
flag), a function-context stack and a class-context flag, and produces
`Locals`, the map from expression identity to scope depth.  Its errors use
the one-argument `Runtime`/`Resolution` error constructors it is written
against. -/

inductive RLoxError
  | runtime (message : String)
  | resolution (message : String)
deriving DecidableEq, Repr

inductive FunctionType
  | function
  | constructor
  | method
deriving DecidableEq, Repr

inductive ClassType
  | none
  | class_
deriving DecidableEq, Repr

/-- Embeds `Locals = HashMap<usize, usize>` (expression identity → depth). -/
abbrev Locals := List (Nat × Nat)

structure Resolver where
  locals_stack : List (List (String × Bool))
  locals : Locals
  functions_stack : List FunctionType
  current_class : ClassType

/-- Outcome of a resolver step: the updated resolver, an error, a modelled
panic (`unreachable!`), or fuel exhaustion. -/
inductive ROut (α : Type)
  | ok (a : α)
  | err (e : RLoxError)
  | panicked (msg : String)
  | fuelOut

def ROut.map {α β : Type} (f : α → β) : ROut α → ROut β
  | .ok a => .ok (f a)
  | .err e => .err e
  | .panicked m => .panicked m
  | .fuelOut => .fuelOut

def Resolver.push (r : Resolver) : Resolver :=
  { r with locals_stack := r.locals_stack ++ [[]] }

def Resolver.pop (r : Resolver) : Resolver :=
  { r with locals_stack := r.locals_stack.dropLast }

/-- Embeds `Resolver::peek` reads the top frame; Rust would panic on an empty
stack, but every call site is guarded by a non-emptiness check, so the empty
case maps to an empty frame. -/
def Resolver.peek (r : Resolver) : List (String × Bool) :=
  r.locals_stack.getLastD []

/-- Replace the top frame (the effect of `peek_mut`). -/
def Resolver.setTop (r : Resolver) (frame : List (String × Bool)) : Resolver :=
  { r with locals_stack := r.locals_stack.dropLast ++ [frame] }

def Resolver.declare (r : Resolver) (name : String) : Resolver :=
  if r.locals_stack.isEmpty then r
  else r.setTop (ainsert r.peek name false).1

def Resolver.define (r : Resolver) (name : String) : Resolver :=
  if r.locals_stack.isEmpty then r
  else r.setTop (ainsert r.peek name true).1

def Resolver.has_name (r : Resolver) (name : String) : Bool :=
  if r.locals_stack.isEmpty then false else acontains r.peek name

def Resolver.is_initialized (r : Resolver) (name : String) : Bool :=
  (alookup r.peek name).getD true

def Resolver.resolve (r : Resolver) (e : Expr) (depth : Nat) : Resolver :=
  { r with locals := ninsert r.locals e.id depth }

/-- The frame search of `Resolver::resolve_local`: iterate the stack from
the top (`iter().rev().enumerate()`), and on the first frame containing the
name record its enumeration index — the frame's distance from the top of the
stack — as the depth; record nothing if no frame contains the name.  The
stack is stored bottom-to-top, so a match in `rest` (nearer the top) takes
precedence and keeps its index, and `frame` itself sits `rest.length` frames
below the top. -/
def Resolver.frame_depth : List (List (String × Bool)) → String → Option Nat
  | [], _ => none
  | frame :: rest, name =>
    match Resolver.frame_depth rest name with
    | some d => some d
    | none => if acontains frame name then some rest.length else none

/-- Embeds `Resolver::resolve_local` -/
def Resolver.resolve_local (r : Resolver) (e : Expr) (name : String) : Resolver :=
  match Resolver.frame_depth r.locals_stack name with
  | some d => r.resolve e d
  | none => r

mutual

/-- Embeds `Resolver::bind_stmt` -/
def Resolver.bind_stmt : Nat → Resolver → Stmt → ROut Resolver
  | 0, _, _ => .fuelOut
  | fuel + 1, r, stmt =>
    match stmt with
    | .block statements => Resolver.bind_stmt_list fuel (r.push) statements |>.map Resolver.pop
    | .var name initializer =>
      if r.has_name name.lexeme_str then
        .err (.runtime ("Cannot redeclare variable \"" ++ name.lexeme_str
          ++ "\" in the same scope"))
      else
        let r := r.declare name.lexeme_str
        match
          (match initializer with
           | some init => Resolver.bind_expr fuel r init
           | none => .ok r) with
        | .fuelOut => .fuelOut
        | .err e => .err e
        | .panicked m => .panicked m
        | .ok r => .ok (r.define name.lexeme_str)
    | .funDecl name params body =>
      Resolver.resolve_function fuel r name params body .function
    | .expr e => Resolver.bind_expr fuel r e
    | .ifElse _ body elseBranch =>
      -- the condition expression is not traversed (`condition: _`)
      match Resolver.bind_stmt fuel r body with
      | .fuelOut => .fuelOut
      | .err e => .err e
      | .panicked m => .panicked m
      | .ok r =>
        match elseBranch with
        | some b => Resolver.bind_stmt fuel r b
        | none => .ok r
    | .print e => Resolver.bind_expr fuel r e
    | .ret e =>
      if r.functions_stack.isEmpty then
        .err (.runtime "Cannot return from global scope")
      else if r.functions_stack.getLastD .function = .constructor then
        .err (.resolution "Cannot return from constructor")
      else Resolver.bind_expr fuel r e
    | .whileLoop condition body =>
      match Resolver.bind_expr fuel (r.push) condition with
      | .fuelOut => .fuelOut
      | .err e => .err e
      | .panicked m => .panicked m
      | .ok r =>
        match Resolver.bind_stmt fuel r body with
        | .fuelOut => .fuelOut
        | .err e => .err e
        | .panicked m => .panicked m
        | .ok r => .ok r.pop
    | .classDecl name superclass methods =>
      let r := { r with current_class := .class_ }
      let r := r.declare name.lexeme_str
      match
        (match superclass with
         | some sc =>
           match sc.kind with
           | .identifier supername =>
             if supername.lexeme_str = name.lexeme_str then
               .err (.resolution ("Class \"" ++ name.lexeme_str
                 ++ "\" cannot inherit from itself"))
             else Resolver.bind_expr fuel r sc
           | _ => .panicked "Expected an identifier"
         | none => .ok r : ROut Resolver) with
      | .fuelOut => .fuelOut
      | .err e => .err e
      | .panicked m => .panicked m
      | .ok r =>
        match Resolver.bind_methods fuel r methods with
        | .fuelOut => .fuelOut
        | .err e => .err e
        | .panicked m => .panicked m
        | .ok r =>
          .ok { (r.define name.lexeme_str) with current_class := .none }
termination_by structural fuel _ _ => fuel

/-- The method loop of the `Stmt::Class` arm: non-`Fun` entries are silently
skipped; a method named `init` resolves with the `Constructor` context. -/
def Resolver.bind_methods : Nat → Resolver → List Stmt → ROut Resolver
  | 0, _, _ => .fuelOut
  | _ + 1, r, [] => .ok r
  | fuel + 1, r, m :: rest =>
    match m with
    | .funDecl name params body =>
      match Resolver.resolve_function fuel r name params body
        (if name.lexeme_str = "init" then .constructor else .method) with
      | .fuelOut => .fuelOut
      | .err e => .err e
      | .panicked m => .panicked m
      | .ok r => Resolver.bind_methods fuel r rest
    | _ => Resolver.bind_methods fuel r rest
termination_by structural fuel _ _ => fuel

def Resolver.bind_stmt_list : Nat → Resolver → List Stmt → ROut Resolver
  | 0, _, _ => .fuelOut
  | _ + 1, r, [] => .ok r
  | fuel + 1, r, s :: rest =>
    match Resolver.bind_stmt fuel r s with
    | .fuelOut => .fuelOut
    | .err e => .err e
    | .panicked m => .panicked m
    | .ok r => Resolver.bind_stmt_list fuel r rest
termination_by structural fuel _ _ => fuel

/-- Embeds `Resolver::bind_expr`.  Note which arms record depth entries: only
`Identifier` and `Assignment` call `resolve_local`; the `This` and `Super`
arms only check the class context; `Get`, `Set` and `Literal` fall into the
catch-all and are not traversed. -/
def Resolver.bind_expr : Nat → Resolver → Expr → ROut Resolver
  | 0, _, _ => .fuelOut
  | fuel + 1, r, e =>
    match e.kind with
    | .identifier name =>
      if ¬r.locals_stack.isEmpty ∧ ¬r.is_initialized name.lexeme_str then
        .err (.resolution "Attempted to resolve variable in its own initializer")
      else .ok (r.resolve_local e name.lexeme_str)
    | .assignment name value =>
      match Resolver.bind_expr fuel r value with
      | .fuelOut => .fuelOut
      | .err err => .err err
      | .panicked m => .panicked m
      | .ok r => .ok (r.resolve_local e name.lexeme_str)
    | .binary _ left right =>
      match Resolver.bind_expr fuel r left with
      | .fuelOut => .fuelOut
      | .err err => .err err
      | .panicked m => .panicked m
      | .ok r => Resolver.bind_expr fuel r right
    | .call callee arguments =>
      match Resolver.bind_expr fuel r callee with
      | .fuelOut => .fuelOut
      | .err err => .err err
      | .panicked m => .panicked m
      | .ok r => Resolver.bind_expr_list fuel r arguments
    | .grouping inner => Resolver.bind_expr fuel r inner
    | .logical _ left right =>
      match Resolver.bind_expr fuel r left with
      | .fuelOut => .fuelOut
      | .err err => .err err
      | .panicked m => .panicked m
      | .ok r => Resolver.bind_expr fuel r right
    | .unary _ right => Resolver.bind_expr fuel r right
    | .this _ =>
      if r.current_class = .none then
        .err (.resolution "Cannot use \"this\" outside of a class")
      else .ok r
    | .super _ =>
      if r.current_class = .none then
        .err (.resolution "Cannot use \"super\" outside of a class")
      else .ok r
    | _ => .ok r
termination_by structural fuel _ _ => fuel

def Resolver.bind_expr_list : Nat → Resolver → List Expr → ROut Resolver
  | 0, _, _ => .fuelOut
  | _ + 1, r, [] => .ok r
  | fuel + 1, r, e :: rest =>
    match Resolver.bind_expr fuel r e with
    | .fuelOut => .fuelOut
    | .err err => .err err
    | .panicked m => .panicked m
    | .ok r => Resolver.bind_expr_list fuel r rest
termination_by structural fuel _ _ => fuel

/-- Embeds `Resolver::resolve_function` -/
def Resolver.resolve_function : Nat → Resolver → Token → List Token → List Stmt →
    FunctionType → ROut Resolver
  | 0, _, _, _, _, _ => .fuelOut
  | fuel + 1, r, name, params, body, func_type =>
    let r := r.define name.lexeme_str
    let r := { r with functions_stack := r.functions_stack ++ [func_type] }
    let r := r.push
    let r := if func_type = .method then r.define "this" else r
    let r := params.foldl (fun r param => r.define param.lexeme_str) r
    match Resolver.bind_stmt_list fuel r body with
    | .fuelOut => .fuelOut
    | .err e => .err e
    | .panicked m => .panicked m
    | .ok r =>
      .ok { r.pop with functions_stack := r.pop.functions_stack.dropLast }
termination_by structural fuel _ _ _ _ _ => fuel

end

/-- Embeds `Resolver::bind`, the entry point: resolve every statement and return
the accumulated `Locals` map. -/
def Resolver.bind (fuel : Nat) (statements : List Stmt) : ROut Locals :=
  (Resolver.bind_stmt_list fuel
    { locals_stack := [], locals := [], functions_stack := [], current_class := .none }
    statements).map Resolver.locals

end Lox

namespace Lox

/-! ## The value model (`value.rs`, `function.rs`, `class.rs`, `object.rs`)

`LoxValue`'s reference variants hold `Rc<RefCell<...>>` cells; each cell is
tagged with the numeric identity its allocation received from the state's
counter.  Function, class, super-table and vector cells carry their contents
inline; object cells (whose property maps the evaluator mutates) are
dereferenced through the heap in the interpreter state.  The `Super` and
`Vec` variants and their accessors live in the current `value.rs`, which is
not in the source tree; they are modelled from the spec (§3: a `Super` value
is a shared flattened property map; an `Array`'s internal storage is a
shared mutable sequence of values) and from their uses in `expr.rs` and
`builtins.rs`. -/

inductive NativeId
  | arrayInit | arrayLen | arrayGet | arraySet | arrayPush | arrayPop
  | timeFn | getArgsFn
deriving DecidableEq, Repr

inductive FunctionBodyV
  | block (stmts : List Stmt) (closure : Nat)
  | native (id : NativeId)

mutual

inductive LoxValue
  | nil
  | boolean (b : Bool)
  | number (n : LoxNum)
  | str (s : String)
  | func (cell : Nat) (f : LoxFunctionV)
  | cls (cell : Nat) (c : LoxClassV)
  | object (cell : Nat)
  | sup (cell : Nat) (tbl : List (String × LoxValue))
  | vec (cell : Nat) (elems : List LoxValue)

inductive LoxFunctionV
  | mk (name : Option String) (params : List Token) (body : FunctionBodyV)
       (this_value : Option LoxValue) (super_value : Option LoxValue)
       (is_constructor : Bool) (line : Nat)

inductive LoxClassV
  | mk (name : String) (superclass : Option (Nat × LoxClassV))
       (methods : List (String × LoxFunctionV))

end

def LoxFunctionV.name : LoxFunctionV → Option String
  | .mk n _ _ _ _ _ _ => n

def LoxFunctionV.params : LoxFunctionV → List Token
  | .mk _ p _ _ _ _ _ => p

def LoxFunctionV.body : LoxFunctionV → FunctionBodyV
  | .mk _ _ b _ _ _ _ => b

def LoxFunctionV.this_value : LoxFunctionV → Option LoxValue
  | .mk _ _ _ t _ _ _ => t

def LoxFunctionV.super_value : LoxFunctionV → Option LoxValue
  | .mk _ _ _ _ s _ _ => s

def LoxFunctionV.is_constructor : LoxFunctionV → Bool
  | .mk _ _ _ _ _ c _ => c

def LoxFunctionV.line : LoxFunctionV → Nat
  | .mk _ _ _ _ _ _ l => l

def LoxClassV.name : LoxClassV → String
  | .mk n _ _ => n

def LoxClassV.superclass : LoxClassV → Option (Nat × LoxClassV)
  | .mk _ s _ => s

def LoxClassV.methods : LoxClassV → List (String × LoxFunctionV)
  | .mk _ _ m => m

/-- Embeds `LoxObject` (`object.rs`): the class cell (identity plus its contents)
and the property map.  These records populate the object heap. -/
structure LoxObjectV where
  classCell : Nat
  classContent : LoxClassV
  props : List (String × LoxValue)

/-- The evaluator's error type (`error.rs`; the file is absent from the
source tree, its variants are reconstructed from every construction site in
`expr.rs`, `stmt.rs`, `function.rs`, `state.rs` and `builtins.rs`:
`Runtime` carries a message and a line there, `Resolution` a message). -/
inductive LoxError
  | io (msg : String)
  | systemTime (msg : String)
  | synError (msg : String) (line : Nat)
  | resolution (msg : String)
  | runtime (msg : String) (line : Nat)
deriving DecidableEq, Repr

/-- Embeds `LoxValue::type_str`.  The `Super`/`Vec` lines are modelled from the
spec (the variants live in the missing current `value.rs`). -/
def LoxValue.type_str : LoxValue → String
  | .nil => "nil"
  | .boolean _ => "Boolean"
  | .number _ => "Number"
  | .str _ => "String"
  | .func _ _ => "Function"
  | .cls _ _ => "Class"
  | .object _ => "Object"
  | .sup _ _ => "Super"
  | .vec _ _ => "Vec"

/-- Embeds `LoxValue::is_truthy`: `nil` and `false` are falsy, all else truthy. -/
def LoxValue.is_truthy : LoxValue → Bool
  | .nil => false
  | .boolean b => b
  | _ => true

def LoxValue.is_number : LoxValue → Bool
  | .number _ => true
  | _ => false

def LoxValue.is_string : LoxValue → Bool
  | .str _ => true
  | _ => false

/-- Embeds `LoxValue::get_number` -/
def LoxValue.get_number : LoxValue → Nat → Except LoxError LoxNum
  | .number n, _ => .ok n
  | v, line => .error (.runtime ("Expected Number, got \"" ++ v.type_str ++ "\"") line)

/-- Embeds `LoxValue::get_object` (returns the object's cell identity). -/
def LoxValue.get_object : LoxValue → Nat → Except LoxError Nat
  | .object cell, _ => .ok cell
  | v, line => .error (.runtime ("Expected Object, got \"" ++ v.type_str ++ "\"") line)

/-- Embeds `LoxValue::get_class` (returns the class cell identity and contents). -/
def LoxValue.get_class : LoxValue → Nat → Except LoxError (Nat × LoxClassV)
  | .cls cell c, _ => .ok (cell, c)
  | v, line => .error (.runtime ("Expected Class, got \"" ++ v.type_str ++ "\"") line)

/-- Embeds `LoxValue::get_fun` -/
def LoxValue.get_fun : LoxValue → Nat → Except LoxError (Nat × LoxFunctionV)
  | .func cell f, _ => .ok (cell, f)
  | v, line => .error (.runtime ("Expected Function, got \"" ++ v.type_str ++ "\"") line)

/-- Embeds `LoxValue::get_super` (modelled from the spec together with the other
`get_*` accessors; lives in the missing current `value.rs`). -/
def LoxValue.get_super : LoxValue → Nat → Except LoxError (List (String × LoxValue))
  | .sup _ tbl, _ => .ok tbl
  | v, line => .error (.runtime ("Expected Super, got \"" ++ v.type_str ++ "\"") line)

/-- Embeds `LoxValue::get_vec` (modelled likewise; returns the vector cell identity
and contents). -/
def LoxValue.get_vec : LoxValue → Nat → Except LoxError (Nat × List LoxValue)
  | .vec cell elems, _ => .ok (cell, elems)
  | v, line => .error (.runtime ("Expected Vec, got \"" ++ v.type_str ++ "\"") line)

/-! ## Environment (`environment.rs`) -/

abbrev ScopeHandle := Nat

def GLOBAL_SCOPE : ScopeHandle := 0

structure Scope where
  vars : List (String × LoxValue)
  parent : Option ScopeHandle
  children : List ScopeHandle

structure Environment where
  builtins : List (String × LoxValue)
  scopes : List (Option Scope)

/-- Rust panics (`assert!`/`expect`) are a `.error msg` of this `Except`. -/
abbrev WithPanic (α : Type) := Except String α

/-- Embeds `Environment::get_scope` (shared logic of `get_scope`/`get_scope_mut`):
asserts the handle is in range, then returns the possibly-free slot. -/
def Environment.get_scope (env : Environment) (handle : ScopeHandle) :
    WithPanic (Option Scope) :=
  if handle < env.scopes.length then .ok (env.scopes.getD handle none)
  else .error "ScopeId out of range"

def Environment.set_scope (env : Environment) (handle : ScopeHandle) (s : Scope) :
    Environment :=
  { env with scopes := env.scopes.set handle (some s) }

/-- The slot scan of `Environment::get_empty`: the index of the first free
slot, if any. -/
def Environment.findFree : List (Option Scope) → Nat → Option Nat
  | [], _ => none
  | none :: _, i => some i
  | some _ :: rest, i => Environment.findFree rest (i + 1)

/-- Embeds `Environment::get_empty`: index of the first free slot, else push a
placeholder and return its index. -/
def Environment.get_empty (env : Environment) : ScopeHandle × Environment :=
  match Environment.findFree env.scopes 0 with
  | some i => (i, env)
  | none => (env.scopes.length, { env with scopes := env.scopes ++ [none] })

/-- Embeds `Environment::new_scope`.  Note the shadowing in the source: the loop
`if let Some(id) = parent { get_scope_mut(id)...children.push(id) }` pushes
the *parent's* handle onto the parent's own child list. -/
def Environment.new_scope (env : Environment) (parent : Option ScopeHandle) :
    WithPanic (ScopeHandle × Environment) := do
  let (id, env) := env.get_empty
  let env := env.set_scope id { vars := [], parent := parent, children := [] }
  match parent with
  | none => .ok (id, env)
  | some pid =>
    match ← env.get_scope pid with
    | none => .error "Invalid scope"
    | some ps => .ok (id, env.set_scope pid { ps with children := ps.children ++ [pid] })

/-- Embeds `Environment::parent_scope` -/
def Environment.parent_scope (env : Environment) (handle : ScopeHandle) :
    WithPanic (Option ScopeHandle) := do
  match ← env.get_scope handle with
  | none => .ok none
  | some s => .ok s.parent

/-- Embeds `Environment::ancestor_scope` -/
def Environment.ancestor_scope (env : Environment) (handle : ScopeHandle)
    (distance : Nat) : WithPanic (Option ScopeHandle) :=
  match distance with
  | 0 => .ok (some handle)
  | d + 1 => do
    match ← env.parent_scope handle with
    | none => .ok none
    | some parent => env.ancestor_scope parent d

def Environment.get_builtin (env : Environment) (key : String) : Option LoxValue :=
  alookup env.builtins key

/-- Embeds `Environment::get`: look up in the addressed scope only (no parent
walk), falling back to the builtins table. -/
def Environment.get (env : Environment) (handle : Option ScopeHandle)
    (key : String) : WithPanic (Option LoxValue) := do
  match ← env.get_scope (handle.getD GLOBAL_SCOPE) with
  | none => .ok none
  | some s =>
    .ok ((alookup s.vars key).orElse fun _ => env.get_builtin key)

/-- Embeds `Environment::declare`: insert unconditionally; a freed slot is silently
ignored (`if let Some(scope) = ...`). -/
def Environment.declare (env : Environment) (handle : Option ScopeHandle)
    (key : String) (value : LoxValue) : WithPanic Environment := do
  match ← env.get_scope (handle.getD GLOBAL_SCOPE) with
  | none => .ok env
  | some s => .ok (env.set_scope (handle.getD GLOBAL_SCOPE)
      { s with vars := (ainsert s.vars key value).1 })

/-- Embeds `Environment::assign`: `expect`s a live scope, `assert!`s that the key
already exists (panicking with "Cannot assign variable before declaration"
otherwise) and replaces the value, returning the previous one. -/
def Environment.assign (env : Environment) (handle : Option ScopeHandle)
    (key : String) (value : LoxValue) :
    WithPanic (Environment × Option LoxValue) := do
  match ← env.get_scope (handle.getD GLOBAL_SCOPE) with
  | none => .error "Invalid scope"
  | some s =>
    if acontains s.vars key then
      let (vars, prev) := ainsert s.vars key value
      .ok (env.set_scope (handle.getD GLOBAL_SCOPE) { s with vars := vars }, prev)
    else .error "Cannot assign variable before declaration"

end Lox

namespace Lox

/-! ## Interpreter state (`state.rs`) and the evaluation monad

The Rust `LoxState` is `{ env, locals, stack }`.  The embedding adds: the
heap of object cells, the allocation counter that gives cells their
identities, the list of observable output events, and the host clock and
process arguments consumed by the `time`/`get_args` builtins (modelled from
the spec, §6). -/

/-- One observable emission.  `logInfo` is a `log::info!` write (the `print`
statement's sink, `stmt.rs`); `debugPrintln` is the `println!` in
`LoxState::resolve_local` (`state.rs`), which writes
`get {expr}({expr_id}) from scope ScopeHandle({scope})` to stdout — the
event records the dynamic data of that line. -/
inductive OutEvent
  | logInfo (text : String)
  | debugPrintln (exprId : Nat) (scope : ScopeHandle)
deriving DecidableEq, Repr

structure LoxState where
  env : Environment
  locals : Locals
  stack : List LoxValue
  heap : List (Nat × LoxObjectV)
  nextCell : Nat
  output : List OutEvent
  timeMillis : LoxNum
  procArgs : List String

/-- How an evaluation step fails to produce a value: a propagated
`LoxError`, a Rust panic, or fuel exhaustion (no Rust counterpart; covers
nonterminating runs). -/
inductive Failure
  | err (e : LoxError)
  | panicked (msg : String)
  | fuelOut
deriving DecidableEq, Repr

/-- The evaluator's monad: the threaded mutable `LoxState` plus the
error/panic channel (`LoxResult` with `?`-propagation). -/
abbrev EvalM (α : Type) := StateT LoxState (Except Failure) α

def liftPanic {α : Type} : WithPanic α → EvalM α
  | .ok a => pure a
  | .error msg => throw (.panicked msg)

def liftErr {α : Type} : Except LoxError α → EvalM α
  | .ok a => pure a
  | .error e => throw (.err e)

def throwRt {α : Type} (msg : String) (line : Nat) : EvalM α :=
  throw (.err (.runtime msg line))

/-- A fresh cell identity (one `Rc::new`). -/
def freshCell : EvalM Nat := do
  let st ← get
  set { st with nextCell := st.nextCell + 1 }
  pure st.nextCell

def emit (ev : OutEvent) : EvalM Unit :=
  modify fun st => { st with output := st.output ++ [ev] }

/-- Dereference an object cell.  A dangling identity cannot arise (Rust
`Rc`s keep their cell alive); it maps to a panic. -/
def heapGet (cell : Nat) : EvalM LoxObjectV := do
  let st ← get
  match nlookup st.heap cell with
  | some o => pure o
  | none => throw (.panicked "dangling object cell")

def heapSet (cell : Nat) (o : LoxObjectV) : EvalM Unit :=
  modify fun st => { st with heap := ninsert st.heap cell o }

/-- Embeds `ToString for LoxValue` (`value.rs`).  Objects read their class name
through the cell; the `Super`/`Vec` lines are modelled (missing current
`value.rs`, unused by the theorems). -/
def LoxValue.to_string (heap : List (Nat × LoxObjectV)) : LoxValue → String
  | .nil => "nil"
  | .boolean b => if b then "true" else "false"
  | .number n => n.display
  | .str s => s
  | .func _ f => "<function " ++ f.name.getD "" ++ ">"
  | .cls _ c => "<class " ++ c.name ++ ">"
  | .object cell =>
    match nlookup heap cell with
    | some o => "<instance " ++ o.classContent.name ++ ">"
    | none => "<instance >"
  | .sup _ _ => "<super>"
  | .vec _ _ => "<vec>"

/-- Embeds `From<Token> for LoxValue`: literal payloads map to values, a missing
payload to `Nil`. -/
def LoxValue.fromToken (t : Token) : LoxValue :=
  match t.literal with
  | some (.false_) => .boolean false
  | some (.true_) => .boolean true
  | some (.num n) => .number n
  | some (.str s) => .str s
  | none => .nil

/-- Embeds `Display for Token`, used only inside the "Unknown unary/binary
operator" messages.  The top-level `scanner.rs` carrying the impl is absent
from the source tree; the embedding renders the lexeme (the exact text of
the message does not decide any claim). -/
def Token.display (t : Token) : String := t.lexeme_str

mutual

def exprEqB : Expr → Expr → Bool
  | .mk k i, .mk k' i' => exprKindEqB k k' ∧ i = i'

def exprKindEqB : ExprKind → ExprKind → Bool
  | .literal t, .literal t' => t = t'
  | .unary op r, .unary op' r' => op = op' ∧ exprEqB r r'
  | .binary op l r, .binary op' l' r' => op = op' ∧ exprEqB l l' ∧ exprEqB r r'
  | .grouping e, .grouping e' => exprEqB e e'
  | .identifier t, .identifier t' => t = t'
  | .assignment n v, .assignment n' v' => n = n' ∧ exprEqB v v'
  | .logical op l r, .logical op' l' r' => op = op' ∧ exprEqB l l' ∧ exprEqB r r'
  | .call c a, .call c' a' => exprEqB c c' ∧ exprListEqB a a'
  | .get l t, .get l' t' => exprEqB l l' ∧ t = t'
  | .set o t v, .set o' t' v' => exprEqB o o' ∧ t = t' ∧ exprEqB v v'
  | .this t, .this t' => t = t'
  | .super t, .super t' => t = t'
  | _, _ => false

def exprListEqB : List Expr → List Expr → Bool
  | [], [] => true
  | e :: r, e' :: r' => exprEqB e e' ∧ exprListEqB r r'
  | _, _ => false

def optExprEqB : Option Expr → Option Expr → Bool
  | none, none => true
  | some e, some e' => exprEqB e e'
  | _, _ => false

def stmtEqB : Stmt → Stmt → Bool
  | .expr e, .expr e' => exprEqB e e'
  | .print e, .print e' => exprEqB e e'
  | .var n i, .var n' i' => n = n' ∧ optExprEqB i i'
  | .block s, .block s' => stmtListEqB s s'
  | .ifElse c b e, .ifElse c' b' e' =>
    exprEqB c c' ∧ stmtEqB b b' ∧ optStmtEqB e e'
  | .whileLoop c b, .whileLoop c' b' => exprEqB c c' ∧ stmtEqB b b'
  | .funDecl n p b, .funDecl n' p' b' => n = n' ∧ p = p' ∧ stmtListEqB b b'
  | .ret e, .ret e' => exprEqB e e'
  | .classDecl n s m, .classDecl n' s' m' =>
    n = n' ∧ optExprEqB s s' ∧ stmtListEqB m m'
  | _, _ => false

def stmtListEqB : List Stmt → List Stmt → Bool
  | [], [] => true
  | s :: r, s' :: r' => stmtEqB s s' ∧ stmtListEqB r r'
  | _, _ => false

def optStmtEqB : Option Stmt → Option Stmt → Bool
  | none, none => true
  | some s, some s' => stmtEqB s s'
  | _, _ => false

end

/-- Structural (derived) equality of function bodies: statement lists
compare structurally — including the expression identities inside, which
`derive(PartialEq)` on `struct Expr { kind, _id }` does compare — and
closure handles compare as integers; native bodies compare as function
pointers (identical builtins only). -/
def bodyEqB : FunctionBodyV → FunctionBodyV → Bool
  | .block s c, .block s' c' => stmtListEqB s s' ∧ c = c'
  | .native i, .native j => i = j
  | _, _ => false


/-! ## The derived equality of `LoxValue` (`#[derive(PartialEq)]`,
`value.rs`)

`==` on two `LoxValue`s is the *derived* `PartialEq`: same discriminant and
equal fields, where an `Rc<RefCell<T>>` field compares by dereferencing to
`T` — cell contents, never cell identity.  Scope handles and expression
identities inside function bodies are plain integers and *are* compared.
Dereferencing object cells can recurse through the heap (an object whose
methods are bound to itself makes the Rust comparison diverge), so the
embedded comparison carries fuel and returns `none` where the Rust code
would not terminate.  `HashMap` equality is order-independent in Rust; the
embedded maps are compared in insertion order, which agrees on every
comparison the theorems below perform (the maps compared there are empty or
share their insertion order). -/

mutual

def rustEqVal : Nat → List (Nat × LoxObjectV) → LoxValue → LoxValue → Option Bool
  | 0, _, _, _ => none
  | fuel + 1, heap, a, b =>
    match a, b with
    | .nil, .nil => some true
    | .boolean x, .boolean y => some (x = y)
    | .number x, .number y => some (x = y)
    | .str x, .str y => some (x = y)
    | .func _ f, .func _ g => rustEqFun fuel heap f g
    | .cls _ c, .cls _ d => rustEqCls fuel heap c d
    | .object i, .object j =>
      match nlookup heap i, nlookup heap j with
      | some oi, some oj =>
        match rustEqCls fuel heap oi.classContent oj.classContent with
        | some true => rustEqProps fuel heap oi.props oj.props
        | r => r
      | _, _ => none
    | .sup _ s, .sup _ t => rustEqProps fuel heap s t
    | .vec _ xs, .vec _ ys => rustEqValList fuel heap xs ys
    | _, _ => some false
termination_by structural fuel _ _ _ => fuel

def rustEqOptVal : Nat → List (Nat × LoxObjectV) → Option LoxValue → Option LoxValue → Option Bool
  | 0, _, _, _ => none
  | _ + 1, _, none, none => some true
  | fuel + 1, heap, some a, some b => rustEqVal fuel heap a b
  | _ + 1, _, _, _ => some false
termination_by structural fuel _ _ _ => fuel

def rustEqFun : Nat → List (Nat × LoxObjectV) → LoxFunctionV → LoxFunctionV → Option Bool
  | 0, _, _, _ => none
  | fuel + 1, heap, f, g =>
    if f.name = g.name ∧ f.params = g.params ∧ f.is_constructor = g.is_constructor
        ∧ f.line = g.line ∧ bodyEqB f.body g.body then
      match rustEqOptVal fuel heap f.this_value g.this_value with
      | some true => rustEqOptVal fuel heap f.super_value g.super_value
      | r => r
    else some false
termination_by structural fuel _ _ _ => fuel

def rustEqCls : Nat → List (Nat × LoxObjectV) → LoxClassV → LoxClassV → Option Bool
  | 0, _, _, _ => none
  | fuel + 1, heap, c, d =>
    if c.name = d.name then
      match c.superclass, d.superclass with
      | none, none => rustEqFunMap fuel heap c.methods d.methods
      | some (_, sc), some (_, sd) =>
        match rustEqCls fuel heap sc sd with
        | some true => rustEqFunMap fuel heap c.methods d.methods
        | r => r
      | _, _ => some false
    else some false
termination_by structural fuel _ _ _ => fuel

def rustEqFunMap : Nat → List (Nat × LoxObjectV) →
    List (String × LoxFunctionV) → List (String × LoxFunctionV) → Option Bool
  | 0, _, _, _ => none
  | _ + 1, _, [], [] => some true
  | fuel + 1, heap, (k, f) :: rest, (k', g) :: rest' =>
    if k = k' then
      match rustEqFun fuel heap f g with
      | some true => rustEqFunMap fuel heap rest rest'
      | r => r
    else some false
  | _ + 1, _, _, _ => some false
termination_by structural fuel _ _ _ => fuel

def rustEqProps : Nat → List (Nat × LoxObjectV) →
    List (String × LoxValue) → List (String × LoxValue) → Option Bool
  | 0, _, _, _ => none
  | _ + 1, _, [], [] => some true
  | fuel + 1, heap, (k, v) :: rest, (k', w) :: rest' =>
    if k = k' then
      match rustEqVal fuel heap v w with
      | some true => rustEqProps fuel heap rest rest'
      | r => r
    else some false
  | _ + 1, _, _, _ => some false
termination_by structural fuel _ _ _ => fuel

def rustEqValList : Nat → List (Nat × LoxObjectV) → List LoxValue → List LoxValue → Option Bool
  | 0, _, _, _ => none
  | _ + 1, _, [], [] => some true
  | fuel + 1, heap, v :: rest, w :: rest' =>
    match rustEqVal fuel heap v w with
    | some true => rustEqValList fuel heap rest rest'
    | r => r
  | _ + 1, _, _, _ => some false
termination_by structural fuel _ _ _ => fuel

end

end Lox

namespace Lox

/-! ## Non-recursive evaluator pieces -/

/-- Embeds `LoxState::resolve_local` (`state.rs`): position the scope using the
resolver's depth entry for this expression (no entry ⇒ the global scope),
*print a debug line to stdout*, then look the key up in that scope. -/
def resolve_local (scope : ScopeHandle) (e : Expr) (key : String) (line : Nat) :
    EvalM LoxValue := do
  let st ← get
  let sc ← match nlookup st.locals e.id with
    | some depth => do
      match ← liftPanic (st.env.ancestor_scope scope depth) with
      | some h => pure h
      | none => throwRt "Invalid scope" line
    | none => pure GLOBAL_SCOPE
  emit (.debugPrintln e.id sc)
  let st ← get
  match ← liftPanic (st.env.get (some sc) key) with
  | some v => pure v
  | none => throwRt ("Undefined variable \"" ++ key ++ "\"") line

/-- Embeds `LoxFunction::from_stmt` (`function.rs`). -/
def LoxFunction.from_stmt (stmt : Stmt) (scope : ScopeHandle) :
    Except LoxError LoxFunctionV :=
  match stmt with
  | .funDecl name params body =>
    .ok (.mk (some name.lexeme_str) params (.block body scope) none none false stmt.line)
  | _ => .error (.runtime "Expected a function statement" stmt.line)

/-- Embeds `matches!(stmt, Stmt::Return(_))` — the body-loop break test of
`LoxFunction::call`. -/
def Stmt.isReturn : Stmt → Bool
  | .ret _ => true
  | _ => false

def declareIn (h : ScopeHandle) (key : String) (v : LoxValue) : EvalM Unit := do
  let st ← get
  let env' ← liftPanic (st.env.declare (some h) key v)
  set { st with env := env' }

/-- The argument-binding loop of `LoxFunction::call`: declare each parameter
in the function's closure scope. -/
def bindParams : List (Token × LoxValue) → ScopeHandle → EvalM Unit
  | [], _ => pure ()
  | (p, a) :: rest, closure => do
    declareIn closure p.lexeme_str a
    bindParams rest closure

/-- The method-map loop of the `Stmt::Class` arm (`stmt.rs`): each method
definition becomes a function closing over the *current* scope, inserted
under its name (`fun.name.clone().unwrap()`). -/
def classMethodsMap : List Stmt → ScopeHandle → List (String × LoxFunctionV) →
    Except Failure (List (String × LoxFunctionV))
  | [], _, acc => .ok acc
  | d :: rest, scope, acc =>
    match LoxFunction.from_stmt d scope with
    | .error e => .error (.err e)
    | .ok f =>
      match f.name with
      | none => .error (.panicked "called unwrap on None")
      | some nm => classMethodsMap rest scope (ainsert acc nm f).1

structure FunctionCallMetadata where
  this_value : Option LoxValue
  line : Nat

def expectThis (meta : FunctionCallMetadata) : EvalM LoxValue :=
  match meta.this_value with
  | some v => pure v
  | none => throw (.panicked "Expected a this value")

/-- Read the `__vec__` property of the `this` object, panicking where the
source does (`expect("Expected a this value")`, `expect("Missing __vec__")`).
Returns the object cell, the vector cell and its contents. -/
def thisVec (meta : FunctionCallMetadata) : EvalM (Nat × Nat × List LoxValue) := do
  let thisv ← expectThis meta
  let cell ← liftErr (thisv.get_object meta.line)
  let o ← heapGet cell
  match alookup o.props "__vec__" with
  | none => throw (.panicked "Missing __vec__")
  | some v => do
    let (vcell, elems) ← liftErr (v.get_vec meta.line)
    pure (cell, vcell, elems)

/-- Replace the `__vec__` contents of an object.  In the source this is a
mutation of the vector cell (`__vec__.borrow_mut()`); in every embedded run
the object's `__vec__` property is that cell's only alias, so updating the
property is observationally the same. -/
def setVec (cell vcell : Nat) (elems : List LoxValue) : EvalM Unit := do
  let o ← heapGet cell
  heapSet cell { o with props := (ainsert o.props "__vec__" (.vec vcell elems)).1 }

/-- Embeds `builtins.rs` `init` for `Array`: store a fresh empty vector in
`__vec__`. -/
def array_init (_args : List LoxValue) (meta : FunctionCallMetadata) : EvalM LoxValue := do
  let thisv ← expectThis meta
  let cell ← liftErr (thisv.get_object meta.line)
  let o ← heapGet cell
  let vcell ← freshCell
  heapSet cell { o with props := (ainsert o.props "__vec__" (.vec vcell [])).1 }
  pure .nil

/-- Embeds `builtins.rs` `method_len`. -/
def method_len (_args : List LoxValue) (meta : FunctionCallMetadata) : EvalM LoxValue := do
  let (_, _, elems) ← thisVec meta
  pure (.number (.ofInt elems.length))

/-- Embeds `builtins.rs` `method_get`: the bounds guard rejects only
`index > len`, then `&__vec__.borrow()[index]` indexes the vector — at
`index = len` the guard passes and the indexing panics. -/
def method_get (args : List LoxValue) (meta : FunctionCallMetadata) : EvalM LoxValue := do
  match args with
  | [] => throwRt "Expected 1 argument" meta.line
  | a0 :: _ => do
    let n ← liftErr (a0.get_number meta.line)
    let index := n.toUsize
    let (_, _, elems) ← thisVec meta
    if index > elems.length then
      throwRt ("Index " ++ toString index ++ " out of range") 0
    else
      match elems.get? index with
      | some v => pure v
      | none => throw (.panicked "index out of bounds")

/-- Embeds `builtins.rs` `method_set`: same `index > len` guard, then
`__vec__.borrow_mut()[index] = value` — at `index = len` the indexing
panics. -/
def method_set (args : List LoxValue) (meta : FunctionCallMetadata) : EvalM LoxValue := do
  match args with
  | a0 :: a1 :: _ => do
    let n ← liftErr (a0.get_number meta.line)
    let index := n.toUsize
    let (cell, vcell, elems) ← thisVec meta
    if index > elems.length then
      throwRt ("Index " ++ toString index ++ " out of range") meta.line
    else if index < elems.length then do
      setVec cell vcell (elems.set index a1)
      pure .nil
    else throw (.panicked "index out of bounds")
  | _ => throwRt "Expected 2 arguments" meta.line

/-- Embeds `builtins.rs` `method_push`. -/
def method_push (args : List LoxValue) (meta : FunctionCallMetadata) : EvalM LoxValue := do
  match args with
  | [] => throwRt "Expected 1 argument" meta.line
  | a0 :: _ => do
    let (cell, vcell, elems) ← thisVec meta
    setVec cell vcell (elems ++ [a0])
    pure .nil

/-- Embeds `builtins.rs` `method_pop`. -/
def method_pop (_args : List LoxValue) (meta : FunctionCallMetadata) : EvalM LoxValue := do
  let (cell, vcell, elems) ← thisVec meta
  match elems.getLast? with
  | none => pure .nil
  | some v => do
    setVec cell vcell elems.dropLast
    pure v

/-- Embeds `builtins.rs` `time`.  Modelled from the spec: milliseconds since the
Unix epoch, supplied by the host through the state's clock field. -/
def time_body (_args : List LoxValue) (_meta : FunctionCallMetadata) : EvalM LoxValue := do
  let st ← get
  pure (.number st.timeMillis)

end Lox

namespace Lox

/-! ## The evaluator (`expr.rs` `Expr::eval`, `stmt.rs` `Stmt::eval`,
`function.rs` `LoxFunction::call`, `object.rs` `LoxObject::instantiate`,
`class.rs` `LoxClass::instantiate`, `builtins.rs` `get_args`) -/

/-- The superclass chain walk of `LoxObject::instantiate`: the class, then
its ancestors. -/
def LoxClassV.chain : LoxClassV → List LoxClassV
  | .mk n none m => [.mk n none m]
  | .mk n (some (i, sc)) m => .mk n (some (i, sc)) m :: sc.chain

mutual

/-- Embeds `Expr::eval` (`expr.rs`).  Note the `Unary` arm: only `Bang` is handled;
every other unary operator — including `Minus`, which the parser produces —
falls into the catch-all runtime error, without evaluating the operand. -/
def Expr.eval : Nat → Expr → ScopeHandle → EvalM LoxValue
  | 0, _, _ => throw .fuelOut
  | fuel + 1, e, scope => do
    match e.kind with
    | .literal t => pure (LoxValue.fromToken t)
    | .unary operator right =>
      match operator.kind with
      | .bang => do
        let rv ← Expr.eval fuel right scope
        pure (.boolean (!rv.is_truthy))
      | _ =>
        throwRt ("Unknown unary operator \"" ++ operator.display ++ "\"") e.line
    | .binary operator left right => do
      let lv ← Expr.eval fuel left scope
      let rv ← Expr.eval fuel right scope
      match operator.kind with
      | .plus =>
        if lv.is_string ∨ rv.is_string then do
          let st ← get
          pure (.str (lv.to_string st.heap ++ rv.to_string st.heap))
        else if lv.is_number ∧ rv.is_number then do
          let a ← liftErr (lv.get_number e.line)
          let b ← liftErr (rv.get_number e.line)
          pure (.number (a.add b))
        else do
          let st ← get
          throwRt ("Invalid operands " ++ lv.to_string st.heap ++ " + "
            ++ rv.to_string st.heap) e.line
      | .minus => do
        let a ← liftErr (lv.get_number e.line)
        let b ← liftErr (rv.get_number e.line)
        pure (.number (a.sub b))
      | .star => do
        let a ← liftErr (lv.get_number e.line)
        let b ← liftErr (rv.get_number e.line)
        pure (.number (a.mul b))
      | .slash => do
        -- `Rat` division (never exercised at a zero divisor in this file;
        -- IEEE infinities are outside the model).
        let a ← liftErr (lv.get_number e.line)
        let b ← liftErr (rv.get_number e.line)
        pure (.number (a.div b))
      | .greater =>
        if lv.is_number ∧ rv.is_number then do
          let a ← liftErr (lv.get_number e.line)
          let b ← liftErr (rv.get_number e.line)
          pure (.boolean (b.ltB a))
        else do
          let st ← get
          throwRt ("Invalid operands " ++ lv.to_string st.heap ++ " > "
            ++ rv.to_string st.heap) e.line
      | .greaterEqual =>
        if lv.is_number ∧ rv.is_number then do
          let a ← liftErr (lv.get_number e.line)
          let b ← liftErr (rv.get_number e.line)
          pure (.boolean (b.leB a))
        else do
          let st ← get
          throwRt ("Invalid operands " ++ lv.to_string st.heap ++ " >= "
            ++ rv.to_string st.heap) e.line
      | .less =>
        if lv.is_number ∧ rv.is_number then do
          let a ← liftErr (lv.get_number e.line)
          let b ← liftErr (rv.get_number e.line)
          pure (.boolean (a.ltB b))
        else do
          let st ← get
          throwRt ("Invalid operands " ++ lv.to_string st.heap ++ " < "
            ++ rv.to_string st.heap) e.line
      | .lessEqual =>
        if lv.is_number ∧ rv.is_number then do
          let a ← liftErr (lv.get_number e.line)
          let b ← liftErr (rv.get_number e.line)
          pure (.boolean (a.leB b))
        else do
          let st ← get
          throwRt ("Invalid operands " ++ lv.to_string st.heap ++ " <= "
            ++ rv.to_string st.heap) e.line
      | .equalEqual => do
        let st ← get
        match rustEqVal fuel st.heap lv rv with
        | some b => pure (.boolean b)
        | none => throw .fuelOut
      | .bangEqual => do
        let st ← get
        match rustEqVal fuel st.heap lv rv with
        | some b => pure (.boolean (!b))
        | none => throw .fuelOut
      | _ =>
        throwRt ("Unknown binary operator \"" ++ operator.display ++ "\"") e.line
    | .grouping inner => Expr.eval fuel inner scope
    | .identifier name => resolve_local scope e name.lexeme_str e.line
    | .assignment name value => do
      let val ← Expr.eval fuel value scope
      let st ← get
      let sc ← match nlookup st.locals e.id with
        | some distance => do
          match ← liftPanic (st.env.ancestor_scope scope distance) with
          | some h => pure h
          | none =>
            throw (.panicked ("Invalid ancestor scope for \""
              ++ name.lexeme_str ++ "\""))
        | none => pure GLOBAL_SCOPE
      let st ← get
      let (env', _prev) ← liftPanic (st.env.assign (some sc) name.lexeme_str val)
      set { st with env := env' }
      pure val
    | .logical operator left right =>
      match operator.kind with
      | .or_ => do
        let v ← Expr.eval fuel left scope
        if !v.is_truthy then Expr.eval fuel right scope else pure v
      | .and_ => do
        let v ← Expr.eval fuel left scope
        if v.is_truthy then Expr.eval fuel right scope else pure v
      | _ =>
        throwRt ("Expected logical operator, got \"" ++ operator.lexeme_str ++ "\"")
          e.line
    | .call callee arguments => do
      let cv ← Expr.eval fuel callee scope
      match cv with
      | .func _ f => LoxFunctionV.call fuel f scope arguments e.line
      | .cls cell c => LoxObject.instantiate fuel cell c scope arguments e.line
      | _ => throwRt "Cannot call a non-function" e.line
    | .get left right => do
      let identifier := right.lexeme_str
      let lv ← Expr.eval fuel left scope
      let cell ← liftErr (lv.get_object e.line)
      let o ← heapGet cell
      match alookup o.props identifier with
      | some v => pure v
      | none => throwRt ("Undefined variable \"" ++ identifier ++ "\"") e.line
    | .set object identifier value => do
      let ov ← Expr.eval fuel object scope
      let cell ← liftErr (ov.get_object e.line)
      let val ← Expr.eval fuel value scope
      let o ← heapGet cell
      heapSet cell { o with props := (ainsert o.props identifier.lexeme_str val).1 }
      pure val
    | .this _ => resolve_local scope e "this" e.line
    | .super method => do
      let sv ← resolve_local scope e "super" e.line
      let tbl ← liftErr (sv.get_super e.line)
      match alookup tbl method.lexeme_str with
      | some v => pure v
      | none =>
        throwRt ("Undefined super method \"" ++ method.lexeme_str ++ "\"") e.line
termination_by structural fuel _ _ => fuel

/-- The argument-evaluation loop of `LoxFunction::call` (caller's scope,
left to right). -/
def Expr.evalArgs : Nat → List Expr → ScopeHandle → EvalM (List LoxValue)
  | 0, _, _ => throw .fuelOut
  | _ + 1, [], _ => pure []
  | fuel + 1, a :: rest, scope => do
    let v ← Expr.eval fuel a scope
    let vs ← Expr.evalArgs fuel rest scope
    pure (v :: vs)
termination_by structural fuel _ _ => fuel

/-- Embeds `Stmt::eval` (`stmt.rs`). -/
def Stmt.eval : Nat → Stmt → ScopeHandle → EvalM Unit
  | 0, _, _ => throw .fuelOut
  | fuel + 1, s, scope => do
    match s with
    | .expr e => do
      let _ ← Expr.eval fuel e scope
      pure ()
    | .print e => do
      let v ← Expr.eval fuel e scope
      let st ← get
      emit (.logInfo (v.to_string st.heap))
    | .var name initializer => do
      let v ← match initializer with
        | some e => Expr.eval fuel e scope
        | none => pure LoxValue.nil
      let st ← get
      let env' ← liftPanic (st.env.declare (some scope) name.lexeme_str v)
      set { st with env := env' }
    | .block statements => do
      let st ← get
      let (bs, env') ← liftPanic (st.env.new_scope (some scope))
      set { st with env := env' }
      Stmt.evalSeq fuel statements bs
    | .ifElse condition body elseBranch => do
      let c ← Expr.eval fuel condition scope
      if c.is_truthy then Stmt.eval fuel body scope
      else
        match elseBranch with
        | some b => Stmt.eval fuel b scope
        | none => pure ()
    | .whileLoop condition body => do
      let st ← get
      let (ws, env') ← liftPanic (st.env.new_scope (some scope))
      set { st with env := env' }
      whileEval fuel condition body ws
    | .funDecl name _ _ => do
      let st ← get
      let (h, env') ← liftPanic (st.env.new_scope (some scope))
      set { st with env := env' }
      let f ← liftErr (LoxFunction.from_stmt s h)
      let cell ← freshCell
      declareIn scope name.lexeme_str (.func cell f)
    | .ret e => do
      let v ← Expr.eval fuel e scope
      let st ← get
      match st.stack with
      | [] =>
        -- `state.stack.len() - 1` underflows and the index panics
        throw (.panicked "index out of bounds")
      | _ => set { st with stack := st.stack.set (st.stack.length - 1) v }
    | .classDecl name superclass method_defs => do
      let methods ← match classMethodsMap method_defs scope [] with
        | .ok m => pure m
        | .error f => throw f
      let superRef ← match superclass with
        | some sce =>
          match sce.kind with
          | .identifier sname => do
            let v ← resolve_local scope sce sname.lexeme_str sce.line
            let cc ← liftErr (v.get_class sce.line)
            pure (some cc)
          | _ => (throw (.panicked "Expected an identifier") :
              EvalM (Option (Nat × LoxClassV)))
        | none => pure none
      let cell ← freshCell
      declareIn scope name.lexeme_str
        (.cls cell (.mk name.lexeme_str superRef methods))
termination_by structural fuel _ _ => fuel

/-- Sequential statement evaluation (the `Stmt::Block` arm's loop, and the
top-level driver's loop). -/
def Stmt.evalSeq : Nat → List Stmt → ScopeHandle → EvalM Unit
  | 0, _, _ => throw .fuelOut
  | _ + 1, [], _ => pure ()
  | fuel + 1, s :: rest, scope => do
    Stmt.eval fuel s scope
    Stmt.evalSeq fuel rest scope
termination_by structural fuel _ _ => fuel

/-- The condition/body loop of the `Stmt::WhileLoop` arm (one loop scope,
allocated by the caller). -/
def whileEval : Nat → Expr → Stmt → ScopeHandle → EvalM Unit
  | 0, _, _, _ => throw .fuelOut
  | fuel + 1, condition, body, ws => do
    let c ← Expr.eval fuel condition ws
    if c.is_truthy then do
      Stmt.eval fuel body ws
      whileEval fuel condition body ws
    else pure ()
termination_by structural fuel _ _ _ => fuel

/-- The body loop of `LoxFunction::call`: evaluate statements in order and
`break` — only when the just-evaluated *top-level* statement is a `Return`. -/
def execBody : Nat → List Stmt → ScopeHandle → EvalM Unit
  | 0, _, _ => throw .fuelOut
  | _ + 1, [], _ => pure ()
  | fuel + 1, s :: rest, closure => do
    Stmt.eval fuel s closure
    if s.isReturn then pure () else execBody fuel rest closure
termination_by structural fuel _ _ => fuel

/-- Embeds `LoxFunction::call` (`function.rs`): arity check, argument evaluation in
the caller's scope, then — for a block body — parameter/`this`/`super`
binding in the function's closure scope, a pushed return slot, the body
loop, and the popped slot as the call's value. -/
def LoxFunctionV.call : Nat → LoxFunctionV → ScopeHandle → List Expr → Nat →
    EvalM LoxValue
  | 0, _, _, _, _ => throw .fuelOut
  | fuel + 1, f, scope, arguments, line => do
    if arguments.length ≠ f.params.length then
      throwRt ("Function \"" ++ f.name.getD "" ++ "\" takes "
        ++ toString f.params.length ++ " argument(s)") f.line
    else do
      let args ← Expr.evalArgs fuel arguments scope
      match f.body with
      | .block statements closure => do
        bindParams (f.params.zip args) closure
        let ret_value ← match f.this_value with
          | some this => do
            declareIn closure "this" this
            pure (if f.is_constructor then this else LoxValue.nil)
          | none => pure LoxValue.nil
        match f.super_value with
        | some sv => declareIn closure "super" sv
        | none => pure ()
        modify fun st => { st with stack := st.stack ++ [ret_value] }
        execBody fuel statements closure
        let st ← get
        match st.stack.getLast? with
        | none => throw (.panicked "called unwrap on None")
        | some v => do
          set { st with stack := st.stack.dropLast }
          pure v
      | .native nid => callNative fuel nid args ⟨f.this_value, line⟩
termination_by structural fuel _ _ _ _ => fuel

/-- Embeds `LoxObject::instantiate` (`object.rs`): fresh object cell, bottom-up
method binding over the reversed superclass chain, then the `init` call. -/
def LoxObject.instantiate : Nat → Nat → LoxClassV → ScopeHandle → List Expr →
    Nat → EvalM LoxValue
  | 0, _, _, _, _, _ => throw .fuelOut
  | fuel + 1, classCell, classContent, scope, arguments, line => do
    let objId ← freshCell
    heapSet objId ⟨classCell, classContent, []⟩
    let thisVal := LoxValue.object objId
    instantiateChain fuel (LoxClassV.chain classContent).reverse thisVal objId none
    let o ← heapGet objId
    let initf := match alookup o.props "init" with
      | some (.func _ f) => some f
      | _ => none
    match initf with
    | some f => do
      let _ ← LoxFunctionV.call fuel f scope arguments line
      pure thisVal
    | none => pure thisVal
termination_by structural fuel _ _ _ _ _ => fuel

/-- The per-class loop of `LoxObject::instantiate`: bind this class's
methods, then wrap the accumulated table in a fresh `Rc` cell for the next
(more derived) class.  (`HashMap` iteration order is unspecified in Rust;
the embedded classes iterate their stored insertion order — every class
instantiated in the theorems below has at most one method.) -/
def instantiateChain : Nat → List LoxClassV → LoxValue → Nat →
    Option (Nat × List (String × LoxValue)) → EvalM Unit
  | 0, _, _, _, _ => throw .fuelOut
  | _ + 1, [], _, _, _ => pure ()
  | fuel + 1, c :: rest, thisVal, objId, superAcc => do
    let tbl ← instantiateMethods fuel c.methods thisVal objId superAcc []
    let supCell ← freshCell
    instantiateChain fuel rest thisVal objId (some (supCell, tbl))
termination_by structural fuel _ _ _ _ => fuel

/-- The per-method loop: clone the method, bind `this` and the accumulated
`super` table, allocate the clone's cell, record it in both the accumulator
and the object's property map. -/
def instantiateMethods : Nat → List (String × LoxFunctionV) → LoxValue → Nat →
    Option (Nat × List (String × LoxValue)) → List (String × LoxValue) →
    EvalM (List (String × LoxValue))
  | 0, _, _, _, _, _ => throw .fuelOut
  | _ + 1, [], _, _, _, acc => pure acc
  | fuel + 1, (nm, f) :: rest, thisVal, objId, superAcc, acc => do
    let method : LoxFunctionV := .mk f.name f.params f.body (some thisVal)
      (superAcc.map fun sc => LoxValue.sup sc.1 sc.2) f.is_constructor f.line
    let cell ← freshCell
    let mv := LoxValue.func cell method
    let acc := (ainsert acc nm mv).1
    let o ← heapGet objId
    heapSet objId { o with props := (ainsert o.props nm mv).1 }
    instantiateMethods fuel rest thisVal objId superAcc acc
termination_by structural fuel _ _ _ _ _ => fuel

/-- Embeds `LoxClass::instantiate` (`class.rs`, the builtins path): no superclass
walk; methods bound to `this`; `init` invoked through `call_native`. -/
def LoxClass.instantiate : Nat → Nat → LoxClassV → List LoxValue → Nat →
    EvalM LoxValue
  | 0, _, _, _, _ => throw .fuelOut
  | fuel + 1, classCell, c, args, line => do
    let objId ← freshCell
    heapSet objId ⟨classCell, c, []⟩
    let thisVal := LoxValue.object objId
    bindNativeMethods fuel c.methods thisVal objId
    let o ← heapGet objId
    match alookup o.props "init" with
    | some (.func _ f) =>
      -- `call_native`: a block body is the "Expected a native function" error
      match f.body with
      | .native nid => do
        let _ ← callNative fuel nid args ⟨f.this_value, line⟩
        pure thisVal
      | .block _ _ => throwRt "Expected a native function" 0
    | _ => pure thisVal
termination_by structural fuel _ _ _ _ => fuel

def bindNativeMethods : Nat → List (String × LoxFunctionV) → LoxValue → Nat →
    EvalM Unit
  | 0, _, _, _ => throw .fuelOut
  | _ + 1, [], _, _ => pure ()
  | fuel + 1, (nm, f) :: rest, thisVal, objId => do
    let method : LoxFunctionV := .mk f.name f.params f.body (some thisVal)
      f.super_value f.is_constructor f.line
    let cell ← freshCell
    let o ← heapGet objId
    heapSet objId { o with props := (ainsert o.props nm (LoxValue.func cell method)).1 }
    bindNativeMethods fuel rest thisVal objId
termination_by structural fuel _ _ _ => fuel

/-- Dispatch of the native function pointers registered in `builtins.rs`. -/
def callNative : Nat → NativeId → List LoxValue → FunctionCallMetadata →
    EvalM LoxValue
  | 0, _, _, _ => throw .fuelOut
  | fuel + 1, nid, args, meta =>
    match nid with
    | .arrayInit => array_init args meta
    | .arrayLen => method_len args meta
    | .arrayGet => method_get args meta
    | .arraySet => method_set args meta
    | .arrayPush => method_push args meta
    | .arrayPop => method_pop args meta
    | .timeFn => time_body args meta
    | .getArgsFn => get_args_body fuel meta
termination_by structural fuel _ _ _ => fuel

/-- Embeds `builtins.rs` `get_args`: the process argument vector as an `Array`
instance (instantiated through `LoxClass::instantiate`), its `__vec__`
replaced by a fresh vector of the argument strings. -/
def get_args_body : Nat → FunctionCallMetadata → EvalM LoxValue
  | 0, _ => throw .fuelOut
  | fuel + 1, meta => do
    let st ← get
    let args := st.procArgs.map LoxValue.str
    let arrv ← match ← liftPanic (st.env.get none "Array") with
      | some v => pure v
      | none => throw (.panicked "Expected Array to exist")
    let (ccell, cc) ← liftErr (arrv.get_class meta.line)
    let lox_vec ← LoxClass.instantiate fuel ccell cc [] meta.line
    let ocell ← liftErr (lox_vec.get_object meta.line)
    let o ← heapGet ocell
    let vcell ← freshCell
    heapSet ocell { o with props := (ainsert o.props "__vec__" (.vec vcell args)).1 }
    pure lox_vec
termination_by structural fuel _ => fuel

end

/-! ## Builtins table and state construction (`builtins.rs`,
`environment.rs`, `state.rs`) -/

def nativeParam (s : String) : Token := ⟨.identifier, some s, none, 0⟩

/-- The `Array` class of `get_builtins`.  Note the source constructs the
`push` and `pop` methods with `LoxFunction::native("get", ...)`: their
*name* field is `"get"`, though they are inserted under `"push"`/`"pop"`. -/
def arrayClassV : LoxClassV :=
  .mk "Array" none
    [("init", .mk (some "init") [] (.native .arrayInit) none none false 0),
     ("len", .mk (some "len") [] (.native .arrayLen) none none false 0),
     ("get", .mk (some "get") [nativeParam "index"] (.native .arrayGet) none none false 0),
     ("set", .mk (some "set") [nativeParam "index", nativeParam "value"]
        (.native .arraySet) none none false 0),
     ("push", .mk (some "get") [nativeParam "value"] (.native .arrayPush) none none false 0),
     ("pop", .mk (some "get") [] (.native .arrayPop) none none false 0)]

/-- Embeds `get_builtins`: the flat builtins map.  The three `Rc` allocations it
performs receive the cell identities 0, 1 and 2; the state's counter starts
above them. -/
def get_builtins : List (String × LoxValue) :=
  [("Array", .cls 0 arrayClassV),
   ("time", .func 1 (.mk (some "time") [] (.native .timeFn) none none false 0)),
   ("get_args", .func 2 (.mk (some "get_args") [] (.native .getArgsFn) none none false 0))]

/-- Embeds `Environment::new`: the builtins table and the preallocated root
scope. -/
def Environment.new : Environment :=
  { builtins := get_builtins, scopes := [some ⟨[], none, []⟩] }

/-- Embeds `LoxState::new`.  The clock and the process arguments (consumed only by
the `time`/`get_args` builtins) are zero/empty here. -/
def LoxState.new (locals : Locals) : LoxState :=
  { env := Environment.new, locals := locals, stack := [], heap := [],
    nextCell := 3, output := [], timeMillis := .ofInt 0, procArgs := [] }

/-- Outcome of a whole run. -/
inductive RunResult
  | ok (st : LoxState)
  | resolveErr (e : RLoxError)
  | evalFailure (f : Failure)
  | fuelOut

/-- Modelled from the spec: the run driver (`interpreter.rs` is absent from
the source tree) resolves all statements, aborts on a resolution error, and
otherwise evaluates the top-level statements in order in the global scope
(§2, §4.7, §6). -/
def runProgram (fuel : Nat) (statements : List Stmt) : RunResult :=
  match Resolver.bind fuel statements with
  | .fuelOut => .fuelOut
  | .panicked m => .evalFailure (.panicked m)
  | .err e => .resolveErr e
  | .ok locals =>
    match (Stmt.evalSeq fuel statements GLOBAL_SCOPE).run (LoxState.new locals) with
    | .ok (_, st) => .ok st
    | .error f => .evalFailure f

end Lox

namespace Lox

/-! ## Concrete programs and inspection helpers used by the theorems -/

/-- An identifier token. -/
def identTok (s : String) : Token := ⟨.identifier, some s, none, 1⟩

/-- A number-literal token carrying an integer literal. -/
def numTok (n : Int) : Token := ⟨.number, some "n", some (.num (.ofInt n)), 1⟩

/-- A token of the given kind and lexeme. -/
def tok (k : TokenKind) (lx : String) : Token := ⟨k, some lx, none, 1⟩

def eofTok : Token := ⟨.eof, none, none, 1⟩

/-- The `true` literal token (the scanner attaches the boolean payload). -/
def trueTok : Token := ⟨.true_, some "true", some .true_, 1⟩

/-- The `false` literal token. -/
def falseTok : Token := ⟨.false_, some "false", some .false_, 1⟩

/-- The global scope's binding for a key after a run. -/
def globalLookup (st : LoxState) (key : String) : Option LoxValue :=
  match st.env.scopes.headD none with
  | some s => alookup s.vars key
  | none => none

/-- The texts written through the log at info level (the `print` sink), in
order, without the stray stdout writes. -/
def logTexts (st : LoxState) : List String :=
  st.output.filterMap fun ev =>
    match ev with
    | .logInfo s => some s
    | _ => none

def runOk : RunResult → Option LoxState
  | .ok st => some st
  | _ => none

/-- The program `var x = 1; x;` (expression identities 0 and 1 in
construction order). -/
def progC9 : List Stmt :=
  [.var (identTok "x") (some (.mk (.literal (numTok 1)) 0)),
   .expr (.mk (.identifier (identTok "x")) 1)]

/-- The body `if (true) return 1;  return 2;` — a `Return` nested inside an
if statement, followed by a further top-level statement. -/
def c3Body : List Stmt :=
  [.ifElse (.mk (.literal trueTok) 0)
     (.ret (.mk (.literal (numTok 1)) 1)) none,
   .ret (.mk (.literal (numTok 2)) 2)]

/-- A function value `fun f() { if (true) return 1;  return 2; }` whose
closure is scope 1. -/
def c3Fun : LoxFunctionV := .mk (some "f") [] (.block c3Body 1) none none false 1

/-- A state owning that closure scope (the body reads no variables, so the
locals map is empty — exactly what the resolver computes for this body). -/
def c3St : LoxState :=
  { LoxState.new [] with
      env := { Environment.new with
        scopes := [some ⟨[], none, []⟩, some ⟨[], some 0, []⟩] } }

/-- The body of `fun f(n) { n and f(false); print n; }`: a guarded recursive
call to `f` itself, followed by a read of the parameter `n` in the
continuation of the outer call.  Expression identities 0–5 in construction
order; the uses of `n` are identities 0 and 5. -/
def c4Body : List Stmt :=
  [.expr (.mk (.logical (tok .and_ "and")
      (.mk (.identifier (identTok "n")) 0)
      (.mk (.call (.mk (.identifier (identTok "f")) 1)
        [.mk (.literal falseTok) 2]) 3)) 4),
   .print (.mk (.identifier (identTok "n")) 5)]

/-- The declaration statement `fun f(n) { n and f(false); print n; }`. -/
def c4Decl : Stmt := .funDecl (identTok "f") [identTok "n"] c4Body

/-- The function value that declaration produces when the freshly allocated
closure scope is handle 1 and the cell counter stands at 3. -/
def c4Fun : LoxFunctionV :=
  .mk (some "f") [identTok "n"] (.block c4Body 1) none none false 1

/-- The state after that declaration: the global scope binds `f` to the
function cell, scope 1 is its (still empty) closure, and the locals map
carries the two depth-0 entries the resolver computes for the uses of `n`
(identities 0 and 5). -/
def c4St : LoxState :=
  { LoxState.new [(0, 0), (5, 0)] with
      env := { Environment.new with
        scopes := [some ⟨[("f", .func 3 c4Fun)], none, []⟩, some ⟨[], some 0, []⟩] },
      nextCell := 4 }

/-- The program `class A {} var x = A(); var y = A(); var e = x == y;`. -/
def progC1 : List Stmt :=
  [.classDecl (identTok "A") none [],
   .var (identTok "x") (some (.mk (.call (.mk (.identifier (identTok "A")) 0) []) 1)),
   .var (identTok "y") (some (.mk (.call (.mk (.identifier (identTok "A")) 2) []) 3)),
   .var (identTok "e") (some (.mk (.binary (tok .equalEqual "==")
      (.mk (.identifier (identTok "x")) 4) (.mk (.identifier (identTok "y")) 5)) 6))]

/-- The program `{ var a = 1; if (a) { print a; } }`: the identifier `a` in
the if-condition carries expression identity 1, the one in the `print`
statement identity 2; both are uses of the *local* `a`. -/
def progC2 : List Stmt :=
  [.block [
    .var (identTok "a") (some (.mk (.literal (numTok 1)) 0)),
    .ifElse (.mk (.identifier (identTok "a")) 1)
      (.block [.print (.mk (.identifier (identTok "a")) 2)]) none]]

/-- The program `class A { m() { print this; } }`: the `this` use carries
expression identity 0 and sits inside a method body (where the resolver's
frame even defines the name `this`). -/
def progC2b : List Stmt :=
  [.classDecl (identTok "A") none
    [.funDecl (identTok "m") [] [.print (.mk (.this (tok .this_ "this")) 0)]]]

/-- The program `class A { init() { return; } }` — the bare `return;`
parses as `Return(Literal(nil))`. -/
def progC6 : List Stmt :=
  [.classDecl (identTok "A") none
    [.funDecl (identTok "init") [] [.ret (.mk (.literal (tok .nil "nil")) 0)]]]

/-- Token stream of `fun f(a, b) { }` — a conventional two-parameter
declaration. -/
def fabToks : List Token :=
  [tok .fun_ "fun", identTok "f", tok .leftParen "(", identTok "a",
   tok .comma ",", identTok "b", tok .rightParen ")", tok .leftBrace "\x7b",
   tok .rightBrace "\x7d", eofTok]

/-- Token stream of `fun f(a) { }`. -/
def faToks : List Token :=
  [tok .fun_ "fun", identTok "f", tok .leftParen "(", identTok "a",
   tok .rightParen ")", tok .leftBrace "\x7b", tok .rightBrace "\x7d", eofTok]

/-- Token stream of `fun f() { }`. -/
def f0Toks : List Token :=
  [tok .fun_ "fun", identTok "f", tok .leftParen "(", tok .rightParen ")",
   tok .leftBrace "\x7b", tok .rightBrace "\x7d", eofTok]

/-- A declaration token stream carrying an `n`-entry parameter list in the
shape `fun_parameters` accepts: `fun f ( p  p ,  p , … p , ) { }` (the first
identifier, then `n - 1` repetitions of identifier-comma). -/
def paramToks (n : Nat) : List Token :=
  [tok .fun_ "fun", identTok "f", tok .leftParen "("] ++
  [identTok "p"] ++ (List.replicate (n - 1) [identTok "p", tok .comma ","]).flatten ++
  [tok .rightParen ")", tok .leftBrace "\x7b", tok .rightBrace "\x7d", eofTok]

/-- Token stream of the call statement `f(1, 1, …, 1);` with `n`
arguments. -/
def argToks (n : Nat) : List Token :=
  [identTok "f", tok .leftParen "("] ++
  (if n = 0 then [] else
    [numTok 1] ++ (List.replicate (n - 1) [tok .comma ",", numTok 1]).flatten) ++
  [tok .rightParen ")", tok .semicolon ";", eofTok]

/-- Statement/error counts of a parse, `none` on fuel exhaustion. -/
def parseCounts (r : Option ParseResult) : Option (Nat × Nat) :=
  r.map fun pr => (pr.statements.length, pr.errors.length)

/-- The parameter count of a parse producing exactly one error-free
function declaration. -/
def parsedFunParamsCount (r : Option ParseResult) : Option Nat :=
  match r with
  | some ⟨[.funDecl _ ps _], []⟩ => some ps.length
  | _ => none

/-- The argument count of a parse producing exactly one error-free call
statement. -/
def parsedCallArgsCount (r : Option ParseResult) : Option Nat :=
  match r with
  | some ⟨[.expr (.call _ args)], []⟩ => some args.length
  | _ => none

/-- The state for the Array-method theorems: one object cell (identity 10)
of the builtin `Array` class whose `__vec__` holds a one-element vector
(cell 11). -/
def arrLen1St : LoxState :=
  { LoxState.new [] with
      heap := [(10, ⟨0, arrayClassV, [("__vec__", .vec 11 [.nil])]⟩)] }

/-- Call metadata binding `this` to that object, at source line 7. -/
def metaArr : FunctionCallMetadata := ⟨some (.object 10), 7⟩

end Lox

namespace Lox

/-- The call-result value of a run of the evaluation monad. -/
def runVal {α : Type} : Except Failure (α × LoxState) → Option α
  | .ok (v, _) => some v
  | .error _ => none

/-- The final state of a run of the evaluation monad. -/
def runEndSt {α : Type} : Except Failure (α × LoxState) → Option LoxState
  | .ok (_, st) => some st
  | .error _ => none

/-- The variable map of a scope handle after a run. -/
def scopeVars (st : LoxState) (h : ScopeHandle) : Option (List (String × LoxValue)) :=
  match st.env.scopes.getD h none with
  | some s => some s.vars
  | none => none

end Lox

namespace Lox

/-- The class value the statement `class A {}` produces. -/
def aClassV : LoxClassV := .mk "A" none []

/-- The statement `class A {}`. -/
def classDeclA : Stmt := .classDecl (identTok "A") none []

/-- The statement `var x = A();` (expression identities 0 and 1). -/
def varX : Stmt :=
  .var (identTok "x") (some (.mk (.call (.mk (.identifier (identTok "A")) 0) []) 1))

/-- The statement `var y = A();` (expression identities 2 and 3). -/
def varY : Stmt :=
  .var (identTok "y") (some (.mk (.call (.mk (.identifier (identTok "A")) 2) []) 3))

/-- The expression `x == y` (identities 4, 5 and 6). -/
def eqXY : Expr :=
  .mk (.binary (tok .equalEqual "==")
    (.mk (.identifier (identTok "x")) 4) (.mk (.identifier (identTok "y")) 5)) 6

/-- The state after evaluating `class A {}` on a fresh state: the global
scope binds `A` to the class at cell 3. -/
def c1St1 : LoxState :=
  { env := ⟨get_builtins, [some ⟨[("A", LoxValue.cls 3 aClassV)], none, []⟩]⟩,
    locals := [], stack := [], heap := [], nextCell := 4, output := [],
    timeMillis := .ofInt 0, procArgs := [] }

/-- The state after further evaluating `var x = A(); var y = A();`: two
separately allocated, empty objects of class `A` at the distinct cells 4
and 6 (each instantiation also consumed a cell for the bound methods map,
hence the counter at 8), and the two stray resolver prints in the output. -/
def c1St3 : LoxState :=
  { env := ⟨get_builtins,
      [some ⟨[("A", LoxValue.cls 3 aClassV), ("x", LoxValue.object 4),
        ("y", LoxValue.object 6)], none, []⟩]⟩,
    locals := [], stack := [],
    heap := [(4, ⟨3, aClassV, []⟩), (6, ⟨3, aClassV, []⟩)], nextCell := 8,
    output := [.debugPrintln 0 0, .debugPrintln 2 0],
    timeMillis := .ofInt 0, procArgs := [] }

/-- The argument expression `true` of the outer call `f(true)`. -/
def c4CallArg : Expr := .mk (.literal trueTok) 10

/-- The outer call `f(true)` of `fun f(n) { n and f(false); print n; }`,
run on the post-declaration state `c4St`. -/
def c4Run : Except Failure (LoxValue × LoxState) :=
  (LoxFunctionV.call 10 c4Fun GLOBAL_SCOPE [c4CallArg] 1).run c4St

/-- The environment `new_scope (some GLOBAL_SCOPE)` yields on a fresh
environment: a new empty scope at handle 1, and the root's children list
holding the parent's own id — the shadowing slip in the source pushes the
parent id, not the child's. -/
def c4WitnessEnv : Environment :=
  ⟨get_builtins, [some ⟨[], none, [0]⟩, some ⟨[], some 0, []⟩]⟩

/-- Token stream of `fun f() { return; }` — a bare return. -/
def bareReturnToks : List Token :=
  [tok .fun_ "fun", identTok "f", tok .leftParen "(", tok .rightParen ")",
   tok .leftBrace "\x7b", tok .return_ "return", tok .semicolon ";",
   tok .rightBrace "\x7d", eofTok]

/-- Token stream of the statement `- 5 ;`. -/
def minusFiveToks : List Token :=
  [tok .minus "-", numTok 5, tok .semicolon ";", eofTok]

end Lox

namespace Lox

/-! ## Shared lemmas about the map and arena helpers -/

theorem nlookup_ninsert_self {α : Type} (l : List (Nat × α)) (k : Nat) (v : α) :
    nlookup (ninsert l k v) k = some v := by
  induction l with
  | nil => simp [ninsert, nlookup]
  | cons p rest ih =>
    obtain ⟨k', w⟩ := p
    by_cases h : k' = k
    · simp [ninsert, nlookup, h]
    · simp [ninsert, nlookup, h, ih]

theorem alookup_ainsert_self {α : Type} (m : List (String × α)) (k : String) (v : α) :
    alookup (ainsert m k v).1 k = some v := by
  induction m with
  | nil => simp [ainsert, alookup]
  | cons p rest ih =>
    obtain ⟨k', w⟩ := p
    by_cases h : k' = k
    · simp [ainsert, alookup, h]
    · simp [ainsert, alookup, h, ih]

theorem getD_set_self {α : Type} (l : List α) (i : Nat) (v d : α) (h : i < l.length) :
    (l.set i v).getD i d = v := by
  induction l generalizing i with
  | nil => simp at h
  | cons a t ih =>
    cases i with
    | zero => simp
    | succ j => simpa using ih j (by simpa using h)

theorem getD_set_ne {α : Type} (l : List α) (i j : Nat) (v d : α) (h : i ≠ j) :
    (l.set i v).getD j d = l.getD j d := by
  induction l generalizing i j with
  | nil => simp
  | cons a t ih =>
    cases i with
    | zero => cases j with
      | zero => exact absurd rfl h
      | succ j' => simp
    | succ i' => cases j with
      | zero => simp
      | succ j' => simpa using ih i' j' (by omega)

theorem getD_len_le {α : Type} (l : List α) (i : Nat) (d : α) (h : l.length ≤ i) :
    l.getD i d = d := by
  induction l generalizing i with
  | nil => simp [List.getD]
  | cons a t ih =>
    cases i with
    | zero => simp at h
    | succ j => simpa using ih j (by simpa using h)

theorem getD_append_left {α : Type} (l l' : List α) (i : Nat) (d : α)
    (h : i < l.length) : (l ++ l').getD i d = l.getD i d := by
  induction l generalizing i with
  | nil => simp at h
  | cons a t ih =>
    cases i with
    | zero => simp
    | succ j => simpa using ih j (by simpa using h)

theorem findFree_spec (l : List (Option Scope)) (k i : Nat)
    (h : Environment.findFree l k = some i) :
    k ≤ i ∧ i - k < l.length ∧ l.getD (i - k) none = none := by
  induction l generalizing k with
  | nil => simp [Environment.findFree] at h
  | cons a t ih =>
    cases a with
    | none =>
      simp [Environment.findFree] at h
      subst h
      simp
    | some s =>
      simp only [Environment.findFree] at h
      obtain ⟨h1, h2, h3⟩ := ih (k + 1) h
      refine ⟨by omega, by simp; omega, ?_⟩
      have hik : i - k = (i - (k + 1)) + 1 := by omega
      rw [hik]
      simpa using h3

/-- On a `new_scope` with a live parent, the returned handle addressed a
free slot before the call and holds a fresh empty scope, whose parent is the
requested one, after it. -/
theorem new_scope_fresh (env : Environment) (parent h : ScopeHandle) (env2 : Environment)
    (hp : (env.scopes.getD parent none).isSome)
    (hns : env.new_scope (some parent) = .ok (h, env2)) :
    env.scopes.getD h none = none
    ∧ env2.scopes.getD h none = some ⟨[], some parent, []⟩ := by
  have hplt : parent < env.scopes.length := by
    rcases Nat.lt_or_ge parent env.scopes.length with hlt | hge
    · exact hlt
    · rw [getD_len_le _ _ _ hge] at hp
      simp at hp
  cases hf : Environment.findFree env.scopes 0 with
  | some i =>
    obtain ⟨-, hlen, hfree⟩ := findFree_spec env.scopes 0 i hf
    simp only [Nat.sub_zero] at hlen hfree
    have hip : i ≠ parent := by
      intro he
      rw [← he] at hp
      rw [hfree] at hp
      simp at hp
    simp only [Environment.new_scope, Environment.get_empty, hf, Environment.set_scope,
      Environment.get_scope, bind, Except.bind] at hns
    rw [if_pos (by simpa using hplt)] at hns
    rw [getD_set_ne _ _ _ _ _ hip] at hns
    cases hps : env.scopes.getD parent none with
    | none => rw [hps] at hp; simp at hp
    | some ps =>
      rw [hps] at hns
      simp only [pure, Except.pure] at hns
      injection hns with hns
      injection hns with h1 h2
      subst h1
      subst h2
      refine ⟨hfree, ?_⟩
      rw [getD_set_ne _ _ _ _ _ (fun he => hip he.symm)]
      rw [getD_set_self _ _ _ _ (by simpa using hlen)]
  | none =>
    have hfree : env.scopes.getD env.scopes.length none = none :=
      getD_len_le _ _ _ (Nat.le_refl _)
    have hip : env.scopes.length ≠ parent := (Nat.ne_of_lt hplt).symm
    simp only [Environment.new_scope, Environment.get_empty, hf, Environment.set_scope,
      Environment.get_scope, bind, Except.bind] at hns
    rw [if_pos (by simpa using Nat.lt_succ_of_lt hplt)] at hns
    rw [getD_set_ne _ _ _ _ _ hip] at hns
    rw [getD_append_left _ _ _ _ hplt] at hns
    cases hps : env.scopes.getD parent none with
    | none => rw [hps] at hp; simp at hp
    | some ps =>
      rw [hps] at hns
      simp only [pure, Except.pure] at hns
      injection hns with hns
      injection hns with h1 h2
      subst h1
      subst h2
      refine ⟨hfree, ?_⟩
      rw [getD_set_ne _ _ _ _ _ (fun he => hip he.symm)]
      rw [getD_set_self]
      · simp

end Lox

namespace Lox

set_option maxHeartbeats 1000000 in
/-- C1 (counterexample): two separately allocated, empty objects of the same
class `A` — living at the distinct cells 4 and 6 of the heap — compare equal
under the `==` the evaluator implements, contradicting identity-based
equality.  The lookup-free resolver map is exactly what the resolver
computes for this program. -/
theorem C1_separate_empty_objects_compare_equal :
    (Stmt.eval 9 classDeclA GLOBAL_SCOPE).run (LoxState.new []) = .ok ((), c1St1)
    ∧ (Stmt.evalSeq 9 [varX, varY] GLOBAL_SCOPE).run c1St1 = .ok ((), c1St3)
    ∧ globalLookup c1St3 "x" = some (.object 4)
    ∧ globalLookup c1St3 "y" = some (.object 6)
    ∧ nlookup c1St3.heap 4 = some ⟨3, aClassV, []⟩
    ∧ nlookup c1St3.heap 6 = some ⟨3, aClassV, []⟩
    ∧ runVal ((Expr.eval 5 eqXY GLOBAL_SCOPE).run c1St3) = some (.boolean true)
    ∧ Resolver.bind 8 [classDeclA, varX, varY, .var (identTok "e") (some eqXY)] = .ok [] :=
  ⟨rfl, rfl, rfl, rfl, rfl, rfl, rfl, rfl⟩

/-- C1: the equality the evaluator's `==` uses (the derived `PartialEq` of
`LoxValue`) is total and by value on the primitive variants — Nil equals only
Nil, Numbers, Booleans and Strings compare by payload — but on Object values
it compares cell *contents*, not identities: replacing the two cells by any
two cells with the same heap contents leaves the verdict unchanged. -/
theorem C1_equality_semantics (fuel : Nat) (heap : List (Nat × LoxObjectV)) :
    (∀ v : LoxValue, rustEqVal (fuel + 1) heap .nil v = some true ↔ v = .nil)
    ∧ (∀ a b : LoxNum,
        rustEqVal (fuel + 1) heap (.number a) (.number b) = some (decide (a = b)))
    ∧ (∀ x y : Bool,
        rustEqVal (fuel + 1) heap (.boolean x) (.boolean y) = some (decide (x = y)))
    ∧ (∀ x y : String,
        rustEqVal (fuel + 1) heap (.str x) (.str y) = some (decide (x = y)))
    ∧ (∀ i j k l : Nat, nlookup heap i = nlookup heap k → nlookup heap j = nlookup heap l →
        rustEqVal (fuel + 1) heap (.object i) (.object j)
          = rustEqVal (fuel + 1) heap (.object k) (.object l)) := by
  refine ⟨?_, ?_, ?_, ?_, ?_⟩
  · intro v; cases v <;> simp [rustEqVal]
  · intro a b; simp [rustEqVal]
  · intro x y; simp [rustEqVal]
  · intro x y; simp [rustEqVal]
  · intro i j k l h1 h2; simp [rustEqVal, h1, h2]

/-- Witness for C1_equality_semantics at concrete inputs. -/
theorem C1_equality_semantics_witness :
    rustEqVal 1 [] (.number (.ofInt 2)) (.number (.ofInt 2)) = some true
    ∧ rustEqVal 1 [] (.object 0) (.object 1) = rustEqVal 1 [] (.object 2) (.object 3) :=
  ⟨((C1_equality_semantics 0 []).2.1 (LoxNum.ofInt 2) (LoxNum.ofInt 2)).trans rfl,
   (C1_equality_semantics 0 []).2.2.2.2 0 1 2 3 rfl rfl⟩

/-- C2 (counterexample): in `{ var a = 1; if (a) { print a; } }` only the
`print` use of the local `a` (identity 2) receives a depth entry (depth 1:
`a` lives one frame below the innermost block) — the `a` in the
if-condition (identity 1) receives none, so the evaluator will look it up
in the global scope; and in `class A { m() { print this; } }` the `this`
use (identity 0) receives no entry either, although resolution succeeds. -/
theorem C2_unresolved_condition_and_this :
    Resolver.bind 10 progC2 = .ok [(2, 1)]
    ∧ Resolver.bind 8 progC2b = .ok [] :=
  ⟨rfl, rfl⟩

/-- C2: what the resolver actually records.  An if-statement's binding is
independent of its condition expression (the arm discards it); a `this` or
`super` use that resolves successfully leaves the resolver — its locals map
included — unchanged; an identifier use gets a depth entry exactly when some
frame of the local stack holds the name; and the recorded depth counts from
the top of the stack: a name in the topmost (innermost) frame gets depth 0,
and a match anywhere else gains one per frame pushed above it. -/
theorem C2_resolver_depth_entries (fuel : Nat) :
    (∀ (r : Resolver) (c c' : Expr) (b : Stmt) (eb : Option Stmt),
        Resolver.bind_stmt (fuel + 1) r (.ifElse c b eb)
          = Resolver.bind_stmt (fuel + 1) r (.ifElse c' b eb))
    ∧ (∀ (r : Resolver) (t : Token) (i : Nat) (r' : Resolver),
        Resolver.bind_expr (fuel + 1) r (.mk (.this t) i) = .ok r' → r' = r)
    ∧ (∀ (r : Resolver) (t : Token) (i : Nat) (r' : Resolver),
        Resolver.bind_expr (fuel + 1) r (.mk (.super t) i) = .ok r' → r' = r)
    ∧ (∀ (r : Resolver) (e : Expr) (name : String) (d : Nat),
        Resolver.frame_depth r.locals_stack name = some d →
        nlookup (r.resolve_local e name).locals e.id = some d)
    ∧ (∀ (r : Resolver) (e : Expr) (name : String),
        Resolver.frame_depth r.locals_stack name = none →
        r.resolve_local e name = r)
    ∧ (∀ (l : List (List (String × Bool))) (f : List (String × Bool)) (name : String),
        Resolver.frame_depth (l ++ [f]) name
          = if acontains f name then some 0
            else (Resolver.frame_depth l name).map (fun d => d + 1)) := by
  refine ⟨?_, ?_, ?_, ?_, ?_, ?_⟩
  · intro r c c' b eb; rfl
  · intro r t i r' h
    simp only [Resolver.bind_expr, Expr.kind] at h
    by_cases hc : r.current_class = .none
    · simp [hc] at h
    · simp [hc] at h; exact h.symm
  · intro r t i r' h
    simp only [Resolver.bind_expr, Expr.kind] at h
    by_cases hc : r.current_class = .none
    · simp [hc] at h
    · simp [hc] at h; exact h.symm
  · intro r e name d h
    simp [Resolver.resolve_local, h, Resolver.resolve, nlookup_ninsert_self]
  · intro r e name h
    simp [Resolver.resolve_local, h]
  · intro l f name
    induction l with
    | nil => by_cases hf : acontains f name <;> simp [Resolver.frame_depth, hf]
    | cons g t ih =>
      simp only [List.cons_append, Resolver.frame_depth, List.append_eq]
      rw [ih]
      by_cases hf : acontains f name
      · simp [hf]
      · cases ht : Resolver.frame_depth t name with
        | some d => simp [hf, ht]
        | none => by_cases hg : acontains g name <;> simp [hf, ht, hg]

/-- Witness for C2_resolver_depth_entries: a stack whose only frame holds
`a` gives the identifier use (identity 7) the depth entry 0, and with an
empty frame pushed on top of it the same use gets depth 1 — the match's
distance from the innermost frame. -/
theorem C2_resolver_depth_entries_witness :
    nlookup ((Resolver.resolve_local ⟨[[("a", true)]], [], [.function], .none⟩
        (.mk (.identifier (identTok "a")) 7) "a").locals) 7 = some 0
    ∧ nlookup ((Resolver.resolve_local ⟨[[("a", true)], []], [], [.function], .none⟩
        (.mk (.identifier (identTok "a")) 7) "a").locals) 7 = some 1 :=
  ⟨(C2_resolver_depth_entries 0).2.2.2.1 ⟨[[("a", true)]], [], [.function], .none⟩
     (.mk (.identifier (identTok "a")) 7) "a" 0 rfl,
   (C2_resolver_depth_entries 0).2.2.2.1 ⟨[[("a", true)], []], [], [.function], .none⟩
     (.mk (.identifier (identTok "a")) 7) "a" 1 rfl⟩

set_option maxHeartbeats 1000000 in
/-- C3 (counterexample): in `fun f() { if (true) return 1;  return 2; }` the
`Return` nested inside the if statement writes the return slot but does not
terminate the body — the following top-level `return 2` runs and overwrites
it, so the call yields 2, not 1. -/
theorem C3_nested_return_does_not_terminate_body :
    (LoxFunctionV.call 5 c3Fun GLOBAL_SCOPE [] 1).run c3St
      = .ok (.number (.ofInt 2), c3St) := rfl

/-- C3: the body loop of a call breaks exactly on a statement that is
*syntactically* a top-level `Return`; any other leading statement — even one
that executes a nested return — is evaluated and the loop continues with the
rest of the body. -/
theorem C3_body_loop_semantics (fuel : Nat) (s : Stmt) (e : Expr) (rest : List Stmt)
    (closure : ScopeHandle) (st : LoxState) :
    (execBody (fuel + 1) (.ret e :: rest) closure st
      = match Stmt.eval fuel (.ret e) closure st with
        | .ok (_, st') => .ok ((), st')
        | .error f => .error f)
    ∧ (s.isReturn = false →
        execBody (fuel + 1) (s :: rest) closure st
          = match Stmt.eval fuel s closure st with
            | .ok (_, st') => execBody fuel rest closure st'
            | .error f => .error f) := by
  constructor
  · simp only [execBody, Stmt.isReturn]
    cases h : Stmt.eval fuel (.ret e) closure st with
    | ok p => simp [bind, StateT.bind, h, Except.bind, pure, StateT.pure, Except.pure]
    | error f => simp [bind, StateT.bind, h, Except.bind]
  · intro hs
    simp only [execBody, hs]
    cases h : Stmt.eval fuel s closure st with
    | ok p => simp [bind, StateT.bind, h, Except.bind, pure, StateT.pure, Except.pure]
    | error f => simp [bind, StateT.bind, h, Except.bind]

/-- Witness for C3_body_loop_semantics: a leading `print 1;` is not a
return, so the loop evaluates it and continues. -/
theorem C3_body_loop_semantics_witness :
    execBody 4 [Stmt.print (.mk (.literal (numTok 1)) 0)] GLOBAL_SCOPE (LoxState.new [])
      = .ok ((), { LoxState.new [] with output := [.logInfo "1"] }) := by
  have h := (C3_body_loop_semantics 3 (Stmt.print (.mk (.literal (numTok 1)) 0))
      (.mk (.literal (numTok 1)) 0) [] GLOBAL_SCOPE (LoxState.new [])).2 rfl
  rw [h]
  rfl

/-- The `Stmt::Fun` arm in isolation: one `new_scope` at declaration time,
and the declared function value stores that single handle as its closure. -/
theorem funDecl_allocates_single_closure (fuel : Nat) (name : Token)
    (params : List Token) (body : List Stmt) (scope : ScopeHandle) (st : LoxState)
    (h : ScopeHandle) (env' : Environment)
    (hns : st.env.new_scope (some scope) = .ok (h, env')) :
    Stmt.eval (fuel + 1) (.funDecl name params body) scope st
      = declareIn scope name.lexeme_str
          (.func st.nextCell
            (.mk (some name.lexeme_str) params (.block body h) none none false name.line))
          { st with env := env', nextCell := st.nextCell + 1 } := by
  simp only [Stmt.eval]
  simp only [bind, StateT.bind, get, getThe, MonadStateOf.get, StateT.get, Except.bind,
    pure, Except.pure, StateT.pure, set, StateT.set, MonadState.get, liftPanic, liftErr,
    LoxFunction.from_stmt, freshCell, hns, Stmt.line]

set_option maxHeartbeats 4000000 in
/-- C4: a function declaration allocates exactly one closure scope (the
declaration arm is one `new_scope` on the declaration's scope, and the stored
body carries that single handle); and in the recursive call
`f(true)` of `fun f(n) { n and f(false); print n; }`, the inner call
`f(false)` rebinds `n` in that same scope, so the outer continuation's
`print n` observes `false` — both prints log `false`, the closure scope ends
holding `n = false`, and the locals map used is exactly the resolver's. -/
theorem C4_closure_per_declaration (fuel : Nat) (name : Token) (params : List Token)
    (body : List Stmt) (scope : ScopeHandle) (st : LoxState) (h : ScopeHandle)
    (env' : Environment) (hns : st.env.new_scope (some scope) = .ok (h, env')) :
    (Stmt.eval (fuel + 1) (.funDecl name params body) scope st
      = declareIn scope name.lexeme_str
          (.func st.nextCell
            (.mk (some name.lexeme_str) params (.block body h) none none false name.line))
          { st with env := env', nextCell := st.nextCell + 1 })
    ∧ (runEndSt c4Run).map logTexts = some ["false", "false"]
    ∧ ((runEndSt c4Run).bind fun s2 => scopeVars s2 1).map (fun m => alookup m "n")
        = some (some (.boolean false))
    ∧ runVal c4Run = some .nil
    ∧ Resolver.bind 10 [c4Decl] = .ok [(0, 0), (5, 0)] :=
  ⟨funDecl_allocates_single_closure fuel name params body scope st h env' hns,
   rfl, rfl, rfl, rfl⟩

/-- Witness for C4_closure_per_declaration: declaring `fun g() {}` on a
fresh state allocates the closure scope 1 and stores the function at
cell 3. -/
theorem C4_closure_per_declaration_witness :
    Stmt.eval 1 (.funDecl (identTok "g") [] []) GLOBAL_SCOPE (LoxState.new [])
      = declareIn GLOBAL_SCOPE "g"
          (.func 3 (.mk (some "g") [] (.block [] 1) none none false 1))
          { LoxState.new [] with env := c4WitnessEnv, nextCell := 4 } :=
  (C4_closure_per_declaration 0 (identTok "g") [] [] GLOBAL_SCOPE
    (LoxState.new []) 1 c4WitnessEnv rfl).1

set_option maxHeartbeats 1000000 in
/-- C5: code bug.  The `Unary` arm of the evaluator handles only `Bang`:
`!nil` evaluates to `true`, but the parser-accepted `- 5` always fails with
the runtime error `Unknown unary operator "-"` — negation of a Number is
impossible, where the spec requires it to succeed. -/
theorem C5_unary_minus_always_errors :
    (Expr.eval 10 (.mk (.unary (tok .minus "-") (.mk (.literal (numTok 5)) 0)) 1)
        GLOBAL_SCOPE).run (LoxState.new [])
      = .error (.err (.runtime "Unknown unary operator \"-\"" 1))
    ∧ (Expr.eval 10 (.mk (.unary (tok .bang "!") (.mk (.literal (tok .nil "nil")) 0)) 1)
        GLOBAL_SCOPE).run (LoxState.new [])
      = .ok (.boolean true, LoxState.new [])
    ∧ Parser.parse 50 minusFiveToks
      = some ⟨[.expr (.unary (tok .minus "-") (.literal (numTok 5)))], []⟩ :=
  ⟨rfl, rfl, rfl⟩

/-- C6 (counterexample): the bare `return;` parses as `Return(Literal(nil))`,
and the resolver rejects it inside a constructor — `class A { init() {
return; } }` fails with `Cannot return from constructor`, where the claim
requires it to be accepted. -/
theorem C6_bare_return_rejected_in_constructor :
    Parser.parse 100 bareReturnToks
      = some ⟨[.funDecl (identTok "f") []
          [.ret (.literal ⟨.nil, some "nil", none, 1⟩)]], []⟩
    ∧ Resolver.bind 8 progC6 = .err (.resolution "Cannot return from constructor") :=
  ⟨rfl, rfl⟩

/-- C6: the return rules the resolver implements: a `return` with an empty
function stack is rejected as `Cannot return from global scope`, and *any*
`return` — whatever its expression, including the parsed form of a bare
`return;` — whose innermost function is a constructor is rejected as
`Cannot return from constructor`. -/
theorem C6_return_rules (fuel : Nat) (r : Resolver) (e : Expr) :
    (r.functions_stack = [] →
        Resolver.bind_stmt (fuel + 1) r (.ret e)
          = .err (.runtime "Cannot return from global scope"))
    ∧ (r.functions_stack ≠ [] →
        r.functions_stack.getLastD .function = .constructor →
        Resolver.bind_stmt (fuel + 1) r (.ret e)
          = .err (.resolution "Cannot return from constructor")) := by
  constructor
  · intro h; simp [Resolver.bind_stmt, h]
  · intro hne h
    simp only [List.getLastD_eq_getLast?] at h
    simp [Resolver.bind_stmt, h, List.isEmpty_iff, hne]

/-- Witness for C6_return_rules at a constructor context. -/
theorem C6_return_rules_witness :
    Resolver.bind_stmt 1 ⟨[], [], [.constructor], .none⟩
        (.ret (.mk (.literal (numTok 1)) 0))
      = .err (.resolution "Cannot return from constructor") :=
  (C6_return_rules 0 ⟨[], [], [.constructor], .none⟩
    (.mk (.literal (numTok 1)) 0)).2 (by simp) rfl

/-- C7 (counterexample): assigning to a name absent from the addressed scope
does not produce a Lox error result — it runs into the source's
`assert!(..., "Cannot assign variable before declaration")`, i.e. a process
abort, modelled as the `WithPanic` error channel. -/
theorem C7_assign_missing_key_panics :
    Environment.new.assign none "x" (.number (.ofInt 1))
      = .error "Cannot assign variable before declaration" := rfl

/-- C7: `assign` on a live scope replaces the value of a key the scope
already holds, and panics (process abort, not a Lox error result) when the
key is absent. -/
theorem C7_assign_semantics (env : Environment) (handle : Option ScopeHandle)
    (key : String) (value : LoxValue) (s : Scope)
    (hs : env.get_scope (handle.getD GLOBAL_SCOPE) = .ok (some s)) :
    (acontains s.vars key = true →
        env.assign handle key value
          = .ok (env.set_scope (handle.getD GLOBAL_SCOPE)
              { s with vars := (ainsert s.vars key value).1 },
             (ainsert s.vars key value).2))
    ∧ (acontains s.vars key = false →
        env.assign handle key value
          = .error "Cannot assign variable before declaration") := by
  constructor
  · intro hk; simp [Environment.assign, hs, hk, bind, Except.bind]
  · intro hk; simp [Environment.assign, hs, hk, bind, Except.bind]

/-- Witness for C7_assign_semantics: replacing the present key `x`. -/
theorem C7_assign_semantics_witness :
    Environment.assign ⟨get_builtins, [some ⟨[("x", LoxValue.nil)], none, []⟩]⟩
        none "x" (.number (.ofInt 1))
      = .ok (⟨get_builtins, [some ⟨[("x", LoxValue.number (.ofInt 1))], none, []⟩]⟩,
          some LoxValue.nil) :=
  ((C7_assign_semantics ⟨get_builtins, [some ⟨[("x", LoxValue.nil)], none, []⟩]⟩
    none "x" (.number (.ofInt 1)) ⟨[("x", LoxValue.nil)], none, []⟩ rfl).1 rfl).trans
    (by rfl)

set_option maxRecDepth 100000 in
set_option maxHeartbeats 8000000 in
/-- C8 (counterexample): a function declaration whose parameter list holds
256 entries (in the identifier-comma shape the grammar accepts) parses
successfully into a 256-parameter declaration — fun_parameters enforces no
limit, where the claim requires a failure at 256. -/
theorem C8_parameter_list_no_limit :
    parsedFunParamsCount (Parser.parse 600 (paramToks 256)) = some 256 := rfl

set_option maxRecDepth 100000 in
set_option maxHeartbeats 8000000 in
/-- C8: call-argument lists of lengths 0, 1 and 255 parse, and 256 arguments
fail with the runtime error `Exceeded maximum number of arguments`; parameter
lists of lengths 0 and 1 parse, but the conventional two-parameter form
`fun f(a, b) { }` is rejected (the grammar demands a comma *after* each
parameter other than the first). -/
theorem C8_argument_limits :
    parsedCallArgsCount (Parser.parse 50 (argToks 0)) = some 0
    ∧ parsedCallArgsCount (Parser.parse 50 (argToks 1)) = some 1
    ∧ parsedCallArgsCount (Parser.parse 600 (argToks 255)) = some 255
    ∧ Parser.parse 600 (argToks 256)
        = some ⟨[], [.runtime "Exceeded maximum number of arguments"]⟩
    ∧ parsedFunParamsCount (Parser.parse 50 faToks) = some 1
    ∧ parsedFunParamsCount (Parser.parse 50 f0Toks) = some 0
    ∧ Parser.parse 50 fabToks
        = some ⟨[], [.synError "Expected closing parenthesis" 1]⟩ :=
  ⟨rfl, rfl, rfl, rfl, rfl, rfl, rfl⟩

set_option maxHeartbeats 1000000 in
/-- C9: code bug.  Running `var x = 1; x;` — a program with no `print`
statement — emits an observable text: the stray `println!` in
`LoxState::resolve_local` writes the debug line for the read of `x`
(expression identity 1, global scope 0) to stdout, which logging
configuration cannot silence. -/
theorem C9_resolve_local_prints_to_stdout :
    (runOk (runProgram 6 progC9)).map (fun st => st.output)
      = some [.debugPrintln 1 0] := rfl

set_option maxHeartbeats 1000000 in
/-- C10: code bug.  On an Array instance of length 1, `get(1)` and
`set(1, v)` reach the vector indexing and panic (`index out of bounds`,
a process abort) because the guard rejects only `index > len`; the
strictly-outside index 2 gets the intended runtime error, and the in-range
index 0 succeeds. -/
theorem C10_boundary_index_panics :
    (method_get [.number (.ofInt 1)] metaArr).run arrLen1St
      = .error (.panicked "index out of bounds")
    ∧ (method_set [.number (.ofInt 1), .number (.ofInt 9)] metaArr).run arrLen1St
      = .error (.panicked "index out of bounds")
    ∧ (method_get [.number (.ofInt 2)] metaArr).run arrLen1St
      = .error (.err (.runtime "Index 2 out of range" 0))
    ∧ (method_get [.number (.ofInt 0)] metaArr).run arrLen1St = .ok (.nil, arrLen1St) :=
  ⟨rfl, rfl, rfl, rfl⟩

end Lox
